import Mathlib

/-!
# SimpleExample.cpp (libicsneo C++ example) — a shallow embedding

The program is a linear script that drives an external device library and
prints to `std::cout`.  The embedding has three parts.

* `Fmt`, `Item`, `render`: the part of `std::cout` the program uses — the number
  base, the fill character and the field width, and the insertions
  (`operator<<`) of strings, characters, integers and manipulators.
* `Library`: the external library, as an arbitrary state machine.  Every
  operation the program calls is a function of the library state that returns a
  result and a new state; nothing is assumed about what it returns.
* `callback`, `deviceBody`, `main`: the program, statement by statement.  A run
  produces a trace of `Event`s: one `Event.out` for each output statement and
  one `Event.call` (with its result) for each call on a device.
-/

namespace SimpleExample

/-! ## Output stream -/

/-- Text is a list of characters. -/
abbrev Text := List Char

/-- One octet of a payload (`uint8_t`). -/
abbrev Byte := Fin 256

/-- Number base of the stream (`std::dec`, `std::hex`); the program never selects octal. -/
inductive Base
  | dec
  | hex
deriving DecidableEq, Repr

/-- Formatting state of `std::cout`: base, fill character and pending field width.
The flags the program never touches (adjustment, showbase, uppercase) keep their
defaults: right adjustment, no base prefix, lowercase digits. -/
structure Fmt where
  base : Base
  fill : Char
  width : Nat
deriving DecidableEq, Repr

/-- Formatting state of a fresh stream: decimal, fill with blanks, no field width. -/
def Fmt.init : Fmt := { base := Base.dec, fill := ' ', width := 0 }

/-- Right adjustment: fill characters are put in front until the field has `width`
characters; a longer text is left as it is. -/
def padLeft (width : Nat) (fill : Char) (s : Text) : Text :=
  List.replicate (width - s.length) fill ++ s

/-- Digits of an unsigned integer in the given base (lowercase for hexadecimal). -/
def natText (b : Base) (n : Nat) : Text :=
  match b with
  | Base.dec => Nat.toDigits 10 n
  | Base.hex => Nat.toDigits 16 n

/-- Digits of a signed integer of `bits` bits: a sign and decimal digits in decimal,
the two's complement bit pattern in hexadecimal. -/
def intText (b : Base) (bits : Nat) (v : Int) : Text :=
  match b with
  | Base.dec => if v < 0 then '-' :: Nat.toDigits 10 v.natAbs else Nat.toDigits 10 v.toNat
  | Base.hex => Nat.toDigits 16 (v % 2 ^ bits).toNat

/-- One operand of `operator<<` on `std::cout`. -/
inductive Item
  | str (s : String)
  | text (t : Text)
  | chr (c : Char)
  | nat (n : Nat)
  | int (bits : Nat) (v : Int)
  | hex
  | dec
  | setw (n : Nat)
  | setfill (c : Char)
  | endl
  | flush
deriving DecidableEq

/-- A formatted insertion: the text is padded to the pending width, and the width is
reset to zero. -/
def Fmt.field (f : Fmt) (s : Text) : Text × Fmt :=
  (padLeft f.width f.fill s, { f with width := 0 })

/-- Effect of one insertion: the characters written and the new formatting state.
`str` is a string literal, `text` a string produced by the library (a name, a serial
number, a MAC address), `nat` an unsigned and `int` a signed integer. -/
def Item.put (f : Fmt) : Item → Text × Fmt
  | Item.str s => f.field s.toList
  | Item.text t => f.field t
  | Item.chr c => f.field [c]
  | Item.nat n => f.field (natText f.base n)
  | Item.int bits v => f.field (intText f.base bits v)
  | Item.hex => ([], { f with base := Base.hex })
  | Item.dec => ([], { f with base := Base.dec })
  | Item.setw n => ([], { f with width := n })
  | Item.setfill c => ([], { f with fill := c })
  | Item.endl => (['\n'], f)
  | Item.flush => ([], f)

/-- One output statement `std::cout << i₁ << i₂ << ...`: the insertions from left to right. -/
def render : List Item → Fmt → Text × Fmt
  | [], f => ([], f)
  | it :: rest, f =>
    let r := it.put f
    let q := render rest r.2
    (r.1 ++ q.1, q.2)

/-! ## Library data -/

/-- Network identifiers the program names; every other identifier is `other`. -/
inductive NetID
  | HSCAN
  | OP_Ethernet2
  | other (id : Nat)
deriving DecidableEq, Repr

/-- Network types (`icsneo::Network::Type`). -/
inductive NetType
  | CAN
  | Ethernet
  | other (code : Nat)
deriving DecidableEq, Repr

/-- A CAN message (`icsneo::CANMessage`): the fields the program reads or writes. -/
structure CANMessage where
  network : NetID
  timestamp : Nat
  data : List Byte
  arbid : Nat
  isExtended : Bool
  isCANFD : Bool
  baudrateSwitch : Bool
deriving DecidableEq, Repr

/-- An Ethernet message (`icsneo::EthernetMessage`). -/
structure EthernetMessage where
  network : NetID
  timestamp : Nat
  data : List Byte
deriving DecidableEq, Repr

/-- Modelled from the spec: the library's message type, which is declared outside this
repository: "tagged union over network type (CAN, Ethernet, others ignored), carrying
timestamp, payload bytes, and type-specific fields".  A message whose network type is
CAN is a `CANMessage` and one whose type is Ethernet an `EthernetMessage`, as the
program's static casts assume. -/
inductive Message
  | can (m : CANMessage)
  | ethernet (m : EthernetMessage)
  | other (code : Nat) (network : NetID) (timestamp : Nat) (data : List Byte)
deriving DecidableEq, Repr

/-- Value of `message->network.getType()`. -/
def Message.getType : Message → NetType
  | Message.can _ => NetType.CAN
  | Message.ethernet _ => NetType.Ethernet
  | Message.other code _ _ _ => NetType.other code

/-- What the program reads of a found device without operating it: the texts of
`getType()` and `getSerial()` and the handle of `getNeoDevice()`. -/
structure DeviceInfo where
  type : Text
  serial : Text
  handle : Int
deriving DecidableEq, Repr

/-- An operation on a device, with its arguments. -/
inductive Call
  | open
  | getBaudrateFor (net : NetID)
  | setBaudrateFor (net : NetID) (baud : Int)
  | getFDBaudrateFor (net : NetID)
  | setFDBaudrateFor (net : NetID) (baud : Int)
  | apply (temporary : Bool)
  | goOnline
  | isOnline
  | enableMessagePolling
  | setPollingMessageLimit (limit : Nat)
  | addMessageCallback
  | removeMessageCallback (handle : Int)
  | getMessages
  | transmit (m : Message)
  | goOffline
  | applyDefaults
  | close
deriving DecidableEq, Repr

/-- What a call returned. -/
inductive Ret
  | unit
  | bool (b : Bool)
  | int (v : Int)
  | handle (h : Int)
  | messages (ms : List Message)
deriving DecidableEq, Repr

/-- A success indicator that reports failure: `false`, or a negative baud rate. -/
def Ret.failed : Ret → Bool
  | Ret.bool b => !b
  | Ret.int v => decide (v < 0)
  | _ => false

/-- Observable steps of a run, in program order.  `dev` is the position of the device
in the vector returned by `FindAllDevices`. -/
inductive Event
  | out (t : Text)
  | call (dev : Nat) (c : Call) (r : Ret)
  | getVersion
  | getSupportedDevices
  | findAllDevices (n : Nat)
  | getErrors (errs : List Text)
  | sleep (ms : Nat)
  | received (dev : Nat) (m : Message)
  | cinGet
deriving DecidableEq

/-- The external library, as a state machine over `σ`.  Each operation takes the
library state and gives its result and the next state; `dev` selects the device.
`streamed` gives the messages the library hands to the registered callback, one
after the other, while the main thread sleeps after `addMessageCallback`;
`networkName`, `sourceMAC` and `destinationMAC` give the text the library's
`operator<<` writes for a network and for the MAC addresses of an Ethernet message.
Every `operator<<` of the library (for a version, a device type, an error, a
network, a MAC address) is taken to insert its text as one string and to leave the
formatting state of the stream alone. -/
structure Library (σ : Type) where
  getVersion : σ → Text × σ
  getSupportedDevices : σ → List Text × σ
  findAllDevices : σ → List DeviceInfo × σ
  getErrors : σ → List Text × σ
  networkName : NetID → Text
  sourceMAC : EthernetMessage → Text
  destinationMAC : EthernetMessage → Text
  open_ : Nat → σ → Bool × σ
  getBaudrateFor : Nat → NetID → σ → Int × σ
  setBaudrateFor : Nat → NetID → Int → σ → Bool × σ
  getFDBaudrateFor : Nat → NetID → σ → Int × σ
  setFDBaudrateFor : Nat → NetID → Int → σ → Bool × σ
  apply : Nat → Bool → σ → Bool × σ
  goOnline : Nat → σ → Bool × σ
  isOnline : Nat → σ → Bool × σ
  enableMessagePolling : Nat → σ → σ
  setPollingMessageLimit : Nat → Nat → σ → σ
  addMessageCallback : Nat → σ → Int × σ
  streamed : Nat → σ → List Message × σ
  removeMessageCallback : Nat → Int → σ → σ
  getMessages : Nat → σ → List Message × σ
  transmit : Nat → Message → σ → Bool × σ
  goOffline : Nat → σ → Bool × σ
  applyDefaults : Nat → σ → Bool × σ
  close : Nat → σ → Bool × σ

/-! ## Program state -/

/-- State of a run: the library, the formatting state of `std::cout`, and the events so far. -/
structure World (σ : Type) where
  lib : σ
  cout : Fmt
  trace : List Event

/-- A world with an empty trace. -/
def World.start {σ : Type} (s : σ) (f : Fmt) : World σ := { lib := s, cout := f, trace := [] }

/-- Record an event. -/
def World.note {σ : Type} (w : World σ) (e : Event) : World σ :=
  { w with trace := w.trace ++ [e] }

/-- One output statement. -/
def World.say {σ : Type} (w : World σ) (items : List Item) : World σ :=
  let r := render items w.cout
  { w with cout := r.2, trace := w.trace ++ [Event.out r.1] }

/-- One call on device `dev` that returns a value: the call and its result are recorded. -/
def World.invoke {σ α : Type} (w : World σ) (dev : Nat) (c : Call) (toRet : α → Ret)
    (op : σ → α × σ) : α × World σ :=
  let r := op w.lib
  (r.1, { w with lib := r.2, trace := w.trace ++ [Event.call dev c (toRet r.1)] })

/-- One call on device `dev` whose result, if any, the program does not look at. -/
def World.perform {σ : Type} (w : World σ) (dev : Nat) (c : Call) (op : σ → σ) : World σ :=
  { w with lib := op w.lib, trace := w.trace ++ [Event.call dev c Ret.unit] }

/-! ## The program -/

/-- The loop of lines 172-176: the hex dump of an Ethernet payload, `i` being the index
of the first byte of `data`. -/
def ethDump {σ : Type} : List Byte → Nat → World σ → World σ
  | [], _, w => w
  | b :: rest, i, w =>
    let w := if i % 8 = 0 then
        w.say [Item.str "\n\t\t  ", Item.hex, Item.setw 4, Item.setfill '0', Item.nat i, Item.chr '\t']
      else w
    let w := w.say [Item.hex, Item.setw 2, Item.nat b.val, Item.chr ' ']
    ethDump rest (i + 1) w

/-- The message callback, lines 134-185. -/
def callback {σ : Type} (L : Library σ) (message : Message) (w : World σ) : World σ :=
  match message with
  | Message.can canMessage =>
    let w := w.say [Item.str "\t\tCAN "]
    let w := if canMessage.isCANFD then
        let w := w.say [Item.str "FD "]
        if !canMessage.baudrateSwitch then w.say [Item.str "(No BRS) "] else w
      else w
    let w := w.say [Item.str "0x", Item.hex, Item.setw (if canMessage.isExtended then 8 else 3),
      Item.setfill '0', Item.nat canMessage.arbid]
    let w := w.say [Item.dec, Item.str " [", Item.nat canMessage.data.length, Item.str "] "]
    let w := canMessage.data.foldl
      (fun w databyte => w.say [Item.hex, Item.setw 2, Item.nat databyte.val, Item.chr ' ']) w
    w.say [Item.dec, Item.chr '(', Item.nat canMessage.timestamp, Item.str " ns since 1/1/2007)\n"]
  | Message.ethernet ethMessage =>
    let w := w.say [Item.str "\t\t", Item.text (L.networkName ethMessage.network),
      Item.str " Frame - ", Item.dec, Item.nat ethMessage.data.length, Item.str " bytes on wire\n"]
    let w := w.say [Item.str "\t\t  Timestamped:\t", Item.nat ethMessage.timestamp,
      Item.str " ns since 1/1/2007\n"]
    let w := w.say [Item.str "\t\t  Source:\t", Item.text (L.sourceMAC ethMessage), Item.str "\n"]
    let w := w.say [Item.str "\t\t  Destination:\t", Item.text (L.destinationMAC ethMessage)]
    let w := ethDump ethMessage.data 0 w
    w.say [Item.dec, Item.endl]
  | Message.other _ _ _ _ => w

/-- The statement that reports a baud rate, e.g. lines 40-43. -/
def reportBaud {σ : Type} (baud : Int) (w : World σ) : World σ :=
  if baud < 0 then
    w.say [Item.str "FAIL", Item.endl]
  else
    w.say [Item.str "OK, ", Item.int 64 (Int.tdiv baud 1000), Item.str "kbit/s", Item.endl]

/-- The statement `std::cout << (ret ? "OK" : "FAIL") << std::endl`. -/
def reportRet {σ : Type} (ret : Bool) (w : World σ) : World σ :=
  w.say [Item.str (if ret then "OK" else "FAIL"), Item.endl]

/-- The extended CAN FD frame built on lines 208-214.  `timestamp` and `baudrateSwitch`
are not assigned by the program and keep the values of a new message. -/
def txMessage : CANMessage :=
  { network := NetID.HSCAN, timestamp := 0, data := [] ++ [0xaa, 0xbb, 0xcc],
    arbid := 0x1C5001C5, isExtended := true, isCANFD := true, baudrateSwitch := false }

/-- The Ethernet frame built on lines 219-226. -/
def ethTxMessage : EthernetMessage :=
  { network := NetID.OP_Ethernet2, timestamp := 0,
    data := [] ++ [0x00, 0xFC, 0x70, 0x00, 0x01, 0x02,
                   0x00, 0xFC, 0x70, 0x00, 0x01, 0x01,
                   0x00, 0x00,
                   0x01, 0xC5, 0x01, 0xC5] }

/-- Lines 38-100: reading, setting and applying the baud rates. -/
def settingsPhase {σ : Type} (L : Library σ) (dev : Nat) (w : World σ) : World σ :=
  let w := w.say [Item.str "\tGetting HSCAN Baudrate... "]
  let r := w.invoke dev (Call.getBaudrateFor NetID.HSCAN) Ret.int (L.getBaudrateFor dev NetID.HSCAN)
  let w := reportBaud r.1 r.2
  let w := w.say [Item.str "\tSetting HSCAN to operate at 125kbit/s... "]
  let r := w.invoke dev (Call.setBaudrateFor NetID.HSCAN 125000) Ret.bool
    (L.setBaudrateFor dev NetID.HSCAN 125000)
  let w := reportRet r.1 r.2
  let w := w.say [Item.str "\tGetting HSCAN Baudrate... (expected to be unchanged) "]
  let r := w.invoke dev (Call.getBaudrateFor NetID.HSCAN) Ret.int (L.getBaudrateFor dev NetID.HSCAN)
  let w := reportBaud r.1 r.2
  let w := w.say [Item.str "\tGetting HSCANFD Baudrate... "]
  let r := w.invoke dev (Call.getFDBaudrateFor NetID.HSCAN) Ret.int
    (L.getFDBaudrateFor dev NetID.HSCAN)
  let w := reportBaud r.1 r.2
  let w := w.say [Item.str "\tSetting HSCANFD to operate at 8Mbit/s... "]
  let r := w.invoke dev (Call.setFDBaudrateFor NetID.HSCAN 8000000) Ret.bool
    (L.setFDBaudrateFor dev NetID.HSCAN 8000000)
  let w := reportRet r.1 r.2
  let w := w.say [Item.str "\tGetting HSCANFD Baudrate... (expected to be unchanged) "]
  let r := w.invoke dev (Call.getFDBaudrateFor NetID.HSCAN) Ret.int
    (L.getFDBaudrateFor dev NetID.HSCAN)
  let w := reportBaud r.1 r.2
  let w := w.say [Item.str "\tSetting settings temporarily... "]
  let r := w.invoke dev (Call.apply true) Ret.bool (L.apply dev true)
  let w := reportRet r.1 r.2
  let w := w.say [Item.str "\tGetting HSCAN Baudrate... "]
  let r := w.invoke dev (Call.getBaudrateFor NetID.HSCAN) Ret.int (L.getBaudrateFor dev NetID.HSCAN)
  let w := reportBaud r.1 r.2
  let w := w.say [Item.str "\tGetting HSCANFD Baudrate... "]
  let r := w.invoke dev (Call.getFDBaudrateFor NetID.HSCAN) Ret.int
    (L.getFDBaudrateFor dev NetID.HSCAN)
  let w := reportBaud r.1 r.2
  let w := w.say [Item.str "\tSetting settings permanently... "]
  let r := w.invoke dev (Call.apply false) Ret.bool (L.apply dev false)
  r.2.say [Item.str (if r.1 then "OK\n\n" else "FAIL\n\n")]

/-- Lines 123-197: polling is enabled, the callback is registered, the main thread
sleeps for three seconds while the library hands messages to the callback, the
callback is removed and the polled messages are fetched. -/
def streamPhase {σ : Type} (L : Library σ) (dev : Nat) (w : World σ) : World σ :=
  let w := w.perform dev Call.enableMessagePolling (L.enableMessagePolling dev)
  let w := w.perform dev (Call.setPollingMessageLimit 100000) (L.setPollingMessageLimit dev 100000)
  let w := w.say [Item.str "\tStreaming messages in for 3 seconds... ", Item.endl]
  let r := w.invoke dev Call.addMessageCallback Ret.handle (L.addMessageCallback dev)
  let handler := r.1
  let w := r.2.note (Event.sleep 3000)
  let d := L.streamed dev w.lib
  let w := d.1.foldl (fun w m => callback L m (w.note (Event.received dev m))) { w with lib := d.2 }
  let w := w.perform dev (Call.removeMessageCallback handler) (L.removeMessageCallback dev handler)
  let r := w.invoke dev Call.getMessages Ret.messages (L.getMessages dev)
  let messages := r.1
  r.2.say [Item.str "\t\tGot ", Item.nat messages.length, Item.str " messages while polling", Item.endl]

/-- Lines 206-230: the two transmissions. -/
def transmitPhase {σ : Type} (L : Library σ) (dev : Nat) (w : World σ) : World σ :=
  let w := w.say [Item.str "\tTransmitting an extended CAN FD frame... "]
  let r := w.invoke dev (Call.transmit (Message.can txMessage)) Ret.bool
    (L.transmit dev (Message.can txMessage))
  let w := reportRet r.1 r.2
  let w := w.say [Item.str "\tTransmitting an ethernet frame on OP (BR) Ethernet 2... "]
  let r := w.invoke dev (Call.transmit (Message.ethernet ethTxMessage)) Ret.bool
    (L.transmit dev (Message.ethernet ethTxMessage))
  let w := reportRet r.1 r.2
  w.note (Event.sleep 50)

/-- Lines 232-244: going offline, restoring the defaults and closing. -/
def teardownPhase {σ : Type} (L : Library σ) (dev : Nat) (w : World σ) : World σ :=
  let w := w.say [Item.str "\tGoing offline... "]
  let r := w.invoke dev Call.goOffline Ret.bool (L.goOffline dev)
  let w := reportRet r.1 r.2
  let w := w.say [Item.str "\tSetting default settings... "]
  let r := w.invoke dev Call.applyDefaults Ret.bool (L.applyDefaults dev)
  let w := reportRet r.1 r.2
  let w := w.say [Item.str "\tDisconnecting... "]
  let r := w.invoke dev Call.close Ret.bool (L.close dev)
  r.2.say [Item.str (if r.1 then "OK\n" else "FAIL\n"), Item.endl]

/-- Lines 102-245: everything after the settings, with the two early exits. -/
def onlinePhase {σ : Type} (L : Library σ) (dev : Nat) (w : World σ) : World σ :=
  let w := w.say [Item.str "\tGoing online... "]
  let r := w.invoke dev Call.goOnline Ret.bool (L.goOnline dev)
  if !r.1 then
    let w := r.2.say [Item.str "FAIL", Item.endl]
    (w.invoke dev Call.close Ret.bool (L.close dev)).2
  else
    let w := r.2.say [Item.str "OK", Item.endl]
    let w := w.say [Item.str "\tChecking online status... "]
    let r := w.invoke dev Call.isOnline Ret.bool (L.isOnline dev)
    if !r.1 then
      let w := r.2.say [Item.str "FAIL\n", Item.endl]
      (w.invoke dev Call.close Ret.bool (L.close dev)).2
    else
      let w := r.2.say [Item.str "OK", Item.endl]
      let w := streamPhase L dev w
      let w := transmitPhase L dev w
      teardownPhase L dev w

/-- The body of the loop over the devices, lines 26-245, for the device at position `dev`. -/
def deviceBody {σ : Type} (L : Library σ) (dev : Nat) (device : DeviceInfo) (w : World σ) :
    World σ :=
  let w := w.say [Item.str "Connecting to ", Item.text device.type, Item.chr ' ',
    Item.text device.serial, Item.str "... "]
  let r := w.invoke dev Call.open Ret.bool (L.open_ dev)
  if !r.1 then
    let w := r.2.say [Item.str "FAIL", Item.endl]
    let e := L.getErrors w.lib
    let w := { w with lib := e.2, trace := w.trace ++ [Event.getErrors e.1] }
    let w := e.1.foldl (fun w err => w.say [Item.str "\t", Item.text err, Item.str "\n"]) w
    w.say [Item.endl]
  else
    let w := r.2.say [Item.str "OK", Item.endl]
    let w := settingsPhase L dev w
    onlinePhase L dev w

/-- The loop `for(auto& device : devices)` of line 26; `dev` is the position of the
first device of the list. -/
def deviceLoop {σ : Type} (L : Library σ) : List DeviceInfo → Nat → World σ → World σ
  | [], _, w => w
  | device :: rest, dev, w => deviceLoop L rest (dev + 1) (deviceBody L dev device w)

/-- The program, lines 8-250. -/
def main {σ : Type} (L : Library σ) (w : World σ) : World σ :=
  let v := L.getVersion w.lib
  let w := { w with lib := v.2, trace := w.trace ++ [Event.getVersion] }
  let w := w.say [Item.str "Running libicsneo ", Item.text v.1, Item.endl]
  let w := w.say [Item.str "Supported devices:", Item.endl]
  let s := L.getSupportedDevices w.lib
  let w := { w with lib := s.2, trace := w.trace ++ [Event.getSupportedDevices] }
  let w := s.1.foldl (fun w dev => w.say [Item.chr '\t', Item.text dev, Item.endl]) w
  let w := w.say [Item.str "\nFinding devices... ", Item.flush]
  let d := L.findAllDevices w.lib
  let devices := d.1
  let w := { w with lib := d.2, trace := w.trace ++ [Event.findAllDevices devices.length] }
  let w := w.say [Item.str "OK, ", Item.nat devices.length, Item.str " device",
    Item.str (if devices.length = 1 then "" else "s"), Item.str " found", Item.endl]
  let w := devices.foldl (fun w device => w.say [Item.chr '\t', Item.text device.type,
    Item.str " - ", Item.text device.serial, Item.str " @ Handle ", Item.int 32 device.handle,
    Item.endl]) w
  let w := w.say [Item.endl]
  let w := deviceLoop L devices 0 w
  let w := w.say [Item.str "Press any key to continue...", Item.endl]
  w.note Event.cinGet

/-- Events of one pass of the loop body, from library state `s` and stream state `f`. -/
def runDevice {σ : Type} (L : Library σ) (dev : Nat) (device : DeviceInfo) (s : σ) (f : Fmt) :
    List Event :=
  (deviceBody L dev device (World.start s f)).trace

/-- Events of a whole run of the program on a fresh stream. -/
def runMain {σ : Type} (L : Library σ) (s : σ) : List Event :=
  (main L (World.start s Fmt.init)).trace

/-! ## Observations on a trace -/

/-- The calls made on device `dev`, with their results, in order. -/
def resultsOn (dev : Nat) : List Event → List (Call × Ret)
  | [] => []
  | Event.call d c r :: rest => if d = dev then (c, r) :: resultsOn dev rest else resultsOn dev rest
  | _ :: rest => resultsOn dev rest

/-- The calls made on device `dev`, in order. -/
def callsOn (dev : Nat) (t : List Event) : List Call :=
  (resultsOn dev t).map Prod.fst

/-- Everything written to `std::cout`. -/
def textOf : List Event → Text
  | [] => []
  | Event.out t :: rest => t ++ textOf rest
  | _ :: rest => textOf rest

/-! ## Closed forms of what the program prints

The functions below describe the events of a run as lists.  They are not part of the
program; each is proved equal to what the program does. -/

/-- Text of one payload byte: two hexadecimal digits, zero filled, and a blank. -/
def byteText (b : Byte) : Text := padLeft 2 '0' (Nat.toDigits 16 b.val) ++ [' ']

/-- Text of the arbitration ID field of a CAN line. -/
def arbidText (m : CANMessage) : Text :=
  padLeft (if m.isExtended then 8 else 3) '0' (Nat.toDigits 16 m.arbid)

/-- Events of the callback for a CAN message, on a stream whose state is `c`. -/
def canEvents (m : CANMessage) (c : Fmt) : List Event :=
  [Event.out (padLeft c.width c.fill "\t\tCAN ".toList)]
  ++ (if m.isCANFD then
        Event.out "FD ".toList :: (if !m.baudrateSwitch then [Event.out "(No BRS) ".toList] else [])
      else [])
  ++ [Event.out ("0x".toList ++ arbidText m),
      Event.out (" [".toList ++ Nat.toDigits 10 m.data.length ++ "] ".toList)]
  ++ m.data.map (fun b => Event.out (byteText b))
  ++ [Event.out ('(' :: Nat.toDigits 10 m.timestamp ++ " ns since 1/1/2007)\n".toList)]

/-- Text that starts a row of the hex dump: line break, indentation, the offset as four
hexadecimal digits, zero filled, and a tab. -/
def rowHead (i : Nat) : Text :=
  "\n\t\t  ".toList ++ padLeft 4 '0' (Nat.toDigits 16 i) ++ ['\t']

/-- Events of the hex dump of `data`, whose first byte has index `i`. -/
def dumpEvents : List Byte → Nat → List Event
  | [], _ => []
  | b :: rest, i =>
    (if i % 8 = 0 then [Event.out (rowHead i)] else [])
      ++ Event.out (byteText b) :: dumpEvents rest (i + 1)

/-- Events of the callback for an Ethernet message, on a stream whose state is `c`. -/
def ethEvents {σ : Type} (L : Library σ) (m : EthernetMessage) (c : Fmt) : List Event :=
  [Event.out (padLeft c.width c.fill "\t\t".toList ++ L.networkName m.network
      ++ " Frame - ".toList ++ Nat.toDigits 10 m.data.length ++ " bytes on wire\n".toList),
   Event.out ("\t\t  Timestamped:\t".toList ++ Nat.toDigits 10 m.timestamp
      ++ " ns since 1/1/2007\n".toList),
   Event.out ("\t\t  Source:\t".toList ++ L.sourceMAC m ++ "\n".toList),
   Event.out ("\t\t  Destination:\t".toList ++ L.destinationMAC m)]
  ++ dumpEvents m.data 0
  ++ [Event.out ['\n']]

/-- Events of the callback for one message. -/
def callbackEvents {σ : Type} (L : Library σ) (m : Message) (c : Fmt) : List Event :=
  match m with
  | Message.can cm => canEvents cm c
  | Message.ethernet em => ethEvents L em c
  | Message.other _ _ _ _ => []

/-- Stream state the callback leaves behind. -/
def callbackFmt (m : Message) (c : Fmt) : Fmt :=
  match m with
  | Message.can _ => { base := Base.dec, fill := '0', width := 0 }
  | Message.ethernet em =>
    { base := Base.dec, fill := if em.data = [] then c.fill else '0', width := 0 }
  | Message.other _ _ _ _ => c

/-- Events of the delivery of a sequence of messages to the callback. -/
def streamEvents {σ : Type} (L : Library σ) (dev : Nat) : List Message → Fmt → List Event
  | [], _ => []
  | m :: rest, c =>
    Event.received dev m :: callbackEvents L m c ++ streamEvents L dev rest (callbackFmt m c)

/-- Stream state after the delivery of a sequence of messages. -/
def streamFmt : List Message → Fmt → Fmt
  | [], c => c
  | m :: rest, c => streamFmt rest (callbackFmt m c)

/-- Insertions that write text and leave base and fill alone. -/
def Item.plain : Item → Bool
  | Item.hex => false
  | Item.dec => false
  | Item.setw _ => false
  | Item.setfill _ => false
  | _ => true

/-- The event of one output statement on a stream whose state is `c`. -/
def outAt (c : Fmt) (items : List Item) : Event := Event.out (render items c).1

/-- Operands of the statement that reports a baud rate. -/
def baudItems (baud : Int) : List Item :=
  if baud < 0 then [Item.str "FAIL", Item.endl]
  else [Item.str "OK, ", Item.int 64 (Int.tdiv baud 1000), Item.str "kbit/s", Item.endl]

/-- Operands of the statement that reports a success indicator. -/
def retItems (ret : Bool) : List Item := [Item.str (if ret then "OK" else "FAIL"), Item.endl]

/-- Results of the calls of lines 38-100, in program order. -/
structure SettingsResults where
  baud1 : Int
  setBaud : Bool
  baud2 : Int
  fd1 : Int
  setFD : Bool
  fd2 : Int
  applyTemporary : Bool
  baud3 : Int
  fd3 : Int
  applyPermanent : Bool

/-- Events of lines 38-100 on a stream whose state is `c`, given the results of the calls. -/
def settingsEvents (dev : Nat) (c : Fmt) (r : SettingsResults) : List Event :=
  [ outAt c [Item.str "\tGetting HSCAN Baudrate... "],
    Event.call dev (Call.getBaudrateFor NetID.HSCAN) (Ret.int r.baud1),
    outAt c (baudItems r.baud1),
    outAt c [Item.str "\tSetting HSCAN to operate at 125kbit/s... "],
    Event.call dev (Call.setBaudrateFor NetID.HSCAN 125000) (Ret.bool r.setBaud),
    outAt c (retItems r.setBaud),
    outAt c [Item.str "\tGetting HSCAN Baudrate... (expected to be unchanged) "],
    Event.call dev (Call.getBaudrateFor NetID.HSCAN) (Ret.int r.baud2),
    outAt c (baudItems r.baud2),
    outAt c [Item.str "\tGetting HSCANFD Baudrate... "],
    Event.call dev (Call.getFDBaudrateFor NetID.HSCAN) (Ret.int r.fd1),
    outAt c (baudItems r.fd1),
    outAt c [Item.str "\tSetting HSCANFD to operate at 8Mbit/s... "],
    Event.call dev (Call.setFDBaudrateFor NetID.HSCAN 8000000) (Ret.bool r.setFD),
    outAt c (retItems r.setFD),
    outAt c [Item.str "\tGetting HSCANFD Baudrate... (expected to be unchanged) "],
    Event.call dev (Call.getFDBaudrateFor NetID.HSCAN) (Ret.int r.fd2),
    outAt c (baudItems r.fd2),
    outAt c [Item.str "\tSetting settings temporarily... "],
    Event.call dev (Call.apply true) (Ret.bool r.applyTemporary),
    outAt c (retItems r.applyTemporary),
    outAt c [Item.str "\tGetting HSCAN Baudrate... "],
    Event.call dev (Call.getBaudrateFor NetID.HSCAN) (Ret.int r.baud3),
    outAt c (baudItems r.baud3),
    outAt c [Item.str "\tGetting HSCANFD Baudrate... "],
    Event.call dev (Call.getFDBaudrateFor NetID.HSCAN) (Ret.int r.fd3),
    outAt c (baudItems r.fd3),
    outAt c [Item.str "\tSetting settings permanently... "],
    Event.call dev (Call.apply false) (Ret.bool r.applyPermanent),
    outAt c [Item.str (if r.applyPermanent then "OK\n\n" else "FAIL\n\n")] ]

/-- Results of the calls of lines 123-197: the handle of the callback, the messages
handed to the callback and the messages fetched by polling. -/
structure StreamResults where
  handler : Int
  streamed : List Message
  polled : List Message

/-- Events of lines 123-197 on a stream whose state is `c`. -/
def streamPhaseEvents {σ : Type} (L : Library σ) (dev : Nat) (c : Fmt) (r : StreamResults) :
    List Event :=
  Event.call dev Call.enableMessagePolling Ret.unit ::
  Event.call dev (Call.setPollingMessageLimit 100000) Ret.unit ::
  outAt c [Item.str "\tStreaming messages in for 3 seconds... ", Item.endl] ::
  Event.call dev Call.addMessageCallback (Ret.handle r.handler) ::
  Event.sleep 3000 ::
  (streamEvents L dev r.streamed c
    ++ [ Event.call dev (Call.removeMessageCallback r.handler) Ret.unit,
         Event.call dev Call.getMessages (Ret.messages r.polled),
         outAt (streamFmt r.streamed c) [Item.str "\t\tGot ", Item.nat r.polled.length,
           Item.str " messages while polling", Item.endl] ])

/-- Results of the calls of lines 206-244. -/
structure TailResults where
  tx1 : Bool
  tx2 : Bool
  goOffline : Bool
  applyDefaults : Bool
  close : Bool

/-- Events of lines 206-244 on a stream whose state is `c`. -/
def tailEvents (dev : Nat) (c : Fmt) (r : TailResults) : List Event :=
  [ outAt c [Item.str "\tTransmitting an extended CAN FD frame... "],
    Event.call dev (Call.transmit (Message.can txMessage)) (Ret.bool r.tx1),
    outAt c (retItems r.tx1),
    outAt c [Item.str "\tTransmitting an ethernet frame on OP (BR) Ethernet 2... "],
    Event.call dev (Call.transmit (Message.ethernet ethTxMessage)) (Ret.bool r.tx2),
    outAt c (retItems r.tx2),
    Event.sleep 50,
    outAt c [Item.str "\tGoing offline... "],
    Event.call dev Call.goOffline (Ret.bool r.goOffline),
    outAt c (retItems r.goOffline),
    outAt c [Item.str "\tSetting default settings... "],
    Event.call dev Call.applyDefaults (Ret.bool r.applyDefaults),
    outAt c (retItems r.applyDefaults),
    outAt c [Item.str "\tDisconnecting... "],
    Event.call dev Call.close (Ret.bool r.close),
    outAt c [Item.str (if r.close then "OK\n" else "FAIL\n"), Item.endl] ]

/-- The four ways through the loop body, with the results of the calls made on the way:
`open` failed; `goOnline` failed; `isOnline` failed; everything was done. -/
inductive Outcome
  | openFailed (errors : List Text)
  | offline (st : SettingsResults) (closed : Bool)
  | unconfirmed (st : SettingsResults) (closed : Bool)
  | completed (st : SettingsResults) (sr : StreamResults) (tr : TailResults)

/-- The statement that announces the device, line 27. -/
def connectItems (device : DeviceInfo) : List Item :=
  [Item.str "Connecting to ", Item.text device.type, Item.chr ' ', Item.text device.serial,
    Item.str "... "]

/-- Events of one pass of the loop body that starts on a stream whose state is `c0`;
after the first statement the field width is zero. -/
def bodyEvents {σ : Type} (L : Library σ) (dev : Nat) (device : DeviceInfo) (c0 : Fmt) :
    Outcome → List Event
  | Outcome.openFailed errors =>
    let c : Fmt := { c0 with width := 0 }
    [ outAt c0 (connectItems device),
      Event.call dev Call.open (Ret.bool false),
      outAt c [Item.str "FAIL", Item.endl],
      Event.getErrors errors ]
    ++ errors.map (fun err => outAt c [Item.str "\t", Item.text err, Item.str "\n"])
    ++ [ outAt c [Item.endl] ]
  | Outcome.offline st closed =>
    let c : Fmt := { c0 with width := 0 }
    [ outAt c0 (connectItems device),
      Event.call dev Call.open (Ret.bool true),
      outAt c [Item.str "OK", Item.endl] ]
    ++ settingsEvents dev c st
    ++ [ outAt c [Item.str "\tGoing online... "],
         Event.call dev Call.goOnline (Ret.bool false),
         outAt c [Item.str "FAIL", Item.endl],
         Event.call dev Call.close (Ret.bool closed) ]
  | Outcome.unconfirmed st closed =>
    let c : Fmt := { c0 with width := 0 }
    [ outAt c0 (connectItems device),
      Event.call dev Call.open (Ret.bool true),
      outAt c [Item.str "OK", Item.endl] ]
    ++ settingsEvents dev c st
    ++ [ outAt c [Item.str "\tGoing online... "],
         Event.call dev Call.goOnline (Ret.bool true),
         outAt c [Item.str "OK", Item.endl],
         outAt c [Item.str "\tChecking online status... "],
         Event.call dev Call.isOnline (Ret.bool false),
         outAt c [Item.str "FAIL\n", Item.endl],
         Event.call dev Call.close (Ret.bool closed) ]
  | Outcome.completed st sr tr =>
    let c : Fmt := { c0 with width := 0 }
    [ outAt c0 (connectItems device),
      Event.call dev Call.open (Ret.bool true),
      outAt c [Item.str "OK", Item.endl] ]
    ++ settingsEvents dev c st
    ++ [ outAt c [Item.str "\tGoing online... "],
         Event.call dev Call.goOnline (Ret.bool true),
         outAt c [Item.str "OK", Item.endl],
         outAt c [Item.str "\tChecking online status... "],
         Event.call dev Call.isOnline (Ret.bool true),
         outAt c [Item.str "OK", Item.endl] ]
    ++ streamPhaseEvents L dev c sr
    ++ tailEvents dev (streamFmt sr.streamed c) tr

/-- Stream state at the end of a pass of the loop body. -/
def bodyFmt (c0 : Fmt) : Outcome → Fmt
  | Outcome.completed _ sr _ => streamFmt sr.streamed { c0 with width := 0 }
  | _ => { c0 with width := 0 }

/-- The calls of one pass of the loop body with their results, for each outcome. -/
def bodyResults : Outcome → List (Call × Ret)
  | Outcome.openFailed _ => [(Call.open, Ret.bool false)]
  | Outcome.offline st closed =>
    (Call.open, Ret.bool true) :: resultsOn 0 (settingsEvents 0 Fmt.init st)
      ++ [(Call.goOnline, Ret.bool false), (Call.close, Ret.bool closed)]
  | Outcome.unconfirmed st closed =>
    (Call.open, Ret.bool true) :: resultsOn 0 (settingsEvents 0 Fmt.init st)
      ++ [(Call.goOnline, Ret.bool true), (Call.isOnline, Ret.bool false),
          (Call.close, Ret.bool closed)]
  | Outcome.completed st sr tr =>
    (Call.open, Ret.bool true) :: resultsOn 0 (settingsEvents 0 Fmt.init st)
      ++ [(Call.goOnline, Ret.bool true), (Call.isOnline, Ret.bool true),
          (Call.enableMessagePolling, Ret.unit),
          (Call.setPollingMessageLimit 100000, Ret.unit),
          (Call.addMessageCallback, Ret.handle sr.handler),
          (Call.removeMessageCallback sr.handler, Ret.unit),
          (Call.getMessages, Ret.messages sr.polled),
          (Call.transmit (Message.can txMessage), Ret.bool tr.tx1),
          (Call.transmit (Message.ethernet ethTxMessage), Ret.bool tr.tx2),
          (Call.goOffline, Ret.bool tr.goOffline),
          (Call.applyDefaults, Ret.bool tr.applyDefaults),
          (Call.close, Ret.bool tr.close) ]


/-! ## A sample library -/

/-- A library whose state says which calls fail: a call selected by the state returns
`false`, or a negative baud rate, and every other call succeeds.  It finds the devices
of `found`, hands `msgs` to the callback and to `getMessages`, and has one entry in its
error queue. -/
def sampleLibrary (found : List DeviceInfo) (msgs : List Message) : Library (Call → Bool) :=
  { getVersion := fun bad => ("v0.3.0".toList, bad)
    getSupportedDevices := fun bad => (["neoVI FIRE 2".toList], bad)
    findAllDevices := fun bad => (found, bad)
    getErrors := fun bad => (["Device busy".toList], bad)
    networkName := fun _ => "Ethernet".toList
    sourceMAC := fun _ => "00:fc:70:00:01:01".toList
    destinationMAC := fun _ => "00:fc:70:00:01:02".toList
    open_ := fun _ bad => (!bad Call.open, bad)
    getBaudrateFor := fun _ net bad =>
      (if bad (Call.getBaudrateFor net) then -1 else 500000, bad)
    setBaudrateFor := fun _ net b bad => (!bad (Call.setBaudrateFor net b), bad)
    getFDBaudrateFor := fun _ net bad =>
      (if bad (Call.getFDBaudrateFor net) then -1 else 2000000, bad)
    setFDBaudrateFor := fun _ net b bad => (!bad (Call.setFDBaudrateFor net b), bad)
    apply := fun _ t bad => (!bad (Call.apply t), bad)
    goOnline := fun _ bad => (!bad Call.goOnline, bad)
    isOnline := fun _ bad => (!bad Call.isOnline, bad)
    enableMessagePolling := fun _ bad => bad
    setPollingMessageLimit := fun _ _ bad => bad
    addMessageCallback := fun _ bad => (1, bad)
    streamed := fun _ bad => (msgs, bad)
    removeMessageCallback := fun _ _ bad => bad
    getMessages := fun _ bad => (msgs, bad)
    transmit := fun _ m bad => (!bad (Call.transmit m), bad)
    goOffline := fun _ bad => (!bad Call.goOffline, bad)
    applyDefaults := fun _ bad => (!bad Call.applyDefaults, bad)
    close := fun _ bad => (!bad Call.close, bad) }

/-- A device for the sample library. -/
def sampleDevice : DeviceInfo :=
  { type := "neoVI FIRE 2".toList, serial := "CY1234".toList, handle := 3 }

/-- The calls the program makes on a device when nothing stops it, `h` being the handle
that `addMessageCallback` returned. -/
def fullCalls (h : Int) : List Call :=
  [ Call.open,
    Call.getBaudrateFor NetID.HSCAN, Call.setBaudrateFor NetID.HSCAN 125000,
    Call.getBaudrateFor NetID.HSCAN,
    Call.getFDBaudrateFor NetID.HSCAN, Call.setFDBaudrateFor NetID.HSCAN 8000000,
    Call.getFDBaudrateFor NetID.HSCAN,
    Call.apply true,
    Call.getBaudrateFor NetID.HSCAN, Call.getFDBaudrateFor NetID.HSCAN,
    Call.apply false,
    Call.goOnline, Call.isOnline,
    Call.enableMessagePolling, Call.setPollingMessageLimit 100000,
    Call.addMessageCallback, Call.removeMessageCallback h,
    Call.getMessages,
    Call.transmit (Message.can txMessage), Call.transmit (Message.ethernet ethTxMessage),
    Call.goOffline, Call.applyDefaults, Call.close ]

/-- The reads of the library's error queue (`icsneo::GetErrors()`) in a trace, in order. -/
def errorReads : List Event → List (List Text)
  | [] => []
  | Event.getErrors errs :: rest => errs :: errorReads rest
  | _ :: rest => errorReads rest

/-- The messages handed to the callback in a trace, in order. -/
def receivedBy : List Event → List Message
  | [] => []
  | Event.received _ m :: rest => m :: receivedBy rest
  | _ :: rest => receivedBy rest

/-- The calls whose result the program only prints (or drops): the settings calls,
`transmit` and the teardown calls. -/
def Call.reported : Call → Bool
  | Call.getBaudrateFor _ => true
  | Call.setBaudrateFor _ _ => true
  | Call.getFDBaudrateFor _ => true
  | Call.setFDBaudrateFor _ _ => true
  | Call.apply _ => true
  | Call.transmit _ => true
  | Call.goOffline => true
  | Call.applyDefaults => true
  | Call.close => true
  | _ => false

/-- A status text: output that starts with OK or with FAIL. -/
def statusText (t : Text) : Bool :=
  "OK".toList.isPrefixOf t || "FAIL".toList.isPrefixOf t

/-- Two events are similar when they are equal, or are the same reported call with
possibly different results, or are both status texts. -/
def Similar (e e' : Event) : Prop :=
  e = e'
  ∨ (∃ d c r r', Call.reported c = true ∧ e = Event.call d c r ∧ e' = Event.call d c r')
  ∨ (∃ a b, statusText a = true ∧ statusText b = true ∧ e = Event.out a ∧ e' = Event.out b)

/-- Events of lines 8-24 on a stream whose state is `c`: the version, the supported
devices, the search for devices and the list of the devices found. -/
def mainHead (c : Fmt) (version : Text) (supported : List Text) (devices : List DeviceInfo) :
    List Event :=
  [ Event.getVersion,
    outAt c [Item.str "Running libicsneo ", Item.text version, Item.endl],
    outAt c [Item.str "Supported devices:", Item.endl],
    Event.getSupportedDevices ]
  ++ supported.map (fun dev => outAt c [Item.chr '\t', Item.text dev, Item.endl])
  ++ [ outAt c [Item.str "\nFinding devices... ", Item.flush],
       Event.findAllDevices devices.length,
       outAt c [Item.str "OK, ", Item.nat devices.length, Item.str " device",
         Item.str (if devices.length = 1 then "" else "s"), Item.str " found", Item.endl] ]
  ++ devices.map (fun device => outAt c [Item.chr '\t', Item.text device.type,
       Item.str " - ", Item.text device.serial, Item.str " @ Handle ", Item.int 32 device.handle,
       Item.endl])
  ++ [ outAt c [Item.endl] ]

/-- The number of devices that `FindAllDevices` returned in a trace. -/
def devicesFound (t : List Event) : Option Nat :=
  t.findSome? (fun e => match e with
    | Event.findAllDevices n => some n
    | _ => none)

/-- Text of the FD marker of a CAN line. -/
def fdText (m : CANMessage) : Text :=
  if m.isCANFD then
    "FD ".toList ++ (if !m.baudrateSwitch then "(No BRS) ".toList else [])
  else []

/-- The part of a CAN line between the leading "\t\tCAN " and the final line break. -/
def canLineBody (m : CANMessage) : Text :=
  fdText m ++ "0x".toList ++ arbidText m ++ " [".toList ++ Nat.toDigits 10 m.data.length
    ++ "] ".toList ++ m.data.flatMap byteText ++ ['('] ++ Nat.toDigits 10 m.timestamp
    ++ " ns since 1/1/2007)".toList

/-- The line the callback prints for a CAN message. -/
def canLine (m : CANMessage) : Text :=
  "\t\tCAN ".toList ++ canLineBody m ++ ['\n']

/-- Value of a hexadecimal digit. -/
def hexDigitValue (c : Char) : Nat :=
  if c.isDigit then c.toNat - '0'.toNat else c.toNat - 'a'.toNat + 10

/-- Value of a string of hexadecimal digits, most significant digit first. -/
def hexValue (t : Text) : Nat :=
  t.foldl (fun acc c => 16 * acc + hexDigitValue c) 0

/-- A world for the sample library: no call fails, fresh stream, empty trace. -/
def sampleWorld : World (Call → Bool) := World.start (fun _ => false) Fmt.init

/-- A CAN message with a standard (11 bit) identifier. -/
def sampleStandard : CANMessage :=
  { network := NetID.HSCAN, timestamp := 1000, data := [0x01, 0xff],
    arbid := 0x7ff, isExtended := false, isCANFD := false, baudrateSwitch := false }

/-- Row `k` of the hex dump of `data`: the head of the row with the offset `8 * k`, and
the bytes `8 * k` to `8 * k + 7` of `data`, as far as there are any. -/
def dumpRow (data : List Byte) (k : Nat) : Text :=
  rowHead (8 * k) ++ ((data.drop (8 * k)).take 8).flatMap byteText

/-- The hex dump of `data`: its rows, one for every eight bytes begun. -/
def dumpRows (data : List Byte) : Text :=
  (List.range ((data.length + 7) / 8)).flatMap (dumpRow data)

/-- A sequence of messages of all three kinds. -/
def sampleMessages : List Message :=
  [ Message.can txMessage, Message.ethernet ethTxMessage,
    Message.other 5 (NetID.other 9) 0 [], Message.can sampleStandard ]

/-! ## Staged settings -/

/-- Modelled from the spec: the settings object of the library, which is not part of
this repository: "per-network baud-rate configuration (standard and FD), with a local
pending staging area that only takes effect on an explicit apply/commit call".  `baud`
and `fdBaud` are the rates the device operates on, `pendingBaud` and `pendingFD` the
staged ones. -/
structure Settings where
  baud : NetID → Int
  fdBaud : NetID → Int
  pendingBaud : NetID → Int
  pendingFD : NetID → Int

/-- A rate table with the rate of one network replaced. -/
def setRate (rates : NetID → Int) (net : NetID) (v : Int) : NetID → Int :=
  fun n => if n = net then v else rates n

/-- An operation of `L` on a state that also holds the settings. -/
def lifted {σ α : Type} (op : σ → α × σ) (s : σ × Settings) : α × (σ × Settings) :=
  ((op s.1).1, ((op s.1).2, s.2))

/-- Modelled from the spec: a library whose settings calls follow the staging rule.  A
get call returns the rate the device operates on; a set call writes only the pending
rate; an apply call succeeds when the apply of `L` does and then copies the pending
rates to the operating ones.  Every other operation is that of `L`. -/
def staged {σ : Type} (L : Library σ) : Library (σ × Settings) :=
  { getVersion := lifted L.getVersion
    getSupportedDevices := lifted L.getSupportedDevices
    findAllDevices := lifted L.findAllDevices
    getErrors := lifted L.getErrors
    networkName := L.networkName
    sourceMAC := L.sourceMAC
    destinationMAC := L.destinationMAC
    open_ := fun dev => lifted (L.open_ dev)
    getBaudrateFor := fun _ net s => (s.2.baud net, s)
    setBaudrateFor := fun _ net v s =>
      (true, (s.1, { s.2 with pendingBaud := setRate s.2.pendingBaud net v }))
    getFDBaudrateFor := fun _ net s => (s.2.fdBaud net, s)
    setFDBaudrateFor := fun _ net v s =>
      (true, (s.1, { s.2 with pendingFD := setRate s.2.pendingFD net v }))
    apply := fun dev temporary s =>
      ((L.apply dev temporary s.1).1,
        ((L.apply dev temporary s.1).2,
          if (L.apply dev temporary s.1).1 then
            { s.2 with baud := s.2.pendingBaud, fdBaud := s.2.pendingFD }
          else s.2))
    goOnline := fun dev => lifted (L.goOnline dev)
    isOnline := fun dev => lifted (L.isOnline dev)
    enableMessagePolling := fun dev s => (L.enableMessagePolling dev s.1, s.2)
    setPollingMessageLimit := fun dev n s => (L.setPollingMessageLimit dev n s.1, s.2)
    addMessageCallback := fun dev => lifted (L.addMessageCallback dev)
    streamed := fun dev => lifted (L.streamed dev)
    removeMessageCallback := fun dev h s => (L.removeMessageCallback dev h s.1, s.2)
    getMessages := fun dev => lifted (L.getMessages dev)
    transmit := fun dev m => lifted (L.transmit dev m)
    goOffline := fun dev => lifted (L.goOffline dev)
    applyDefaults := fun dev => lifted (L.applyDefaults dev)
    close := fun dev => lifted (L.close dev) }

/-- The line that reports a baud rate on a stream in decimal: FAIL for a negative rate,
else the rate in kbit/s. -/
def baudLine (v : Int) : Text :=
  if v < 0 then "FAIL\n".toList
  else "OK, ".toList ++ Nat.toDigits 10 (v / 1000).toNat ++ "kbit/s\n".toList

/-- Events of lines 38-96 when the settings are staged: the rates read before the apply
are `b` and `fd`, the rates read after it 125000 and 8000000. -/
def stagedEvents (dev : Nat) (b fd : Int) : List Event :=
  [ Event.out "\tGetting HSCAN Baudrate... ".toList,
    Event.call dev (Call.getBaudrateFor NetID.HSCAN) (Ret.int b),
    Event.out (baudLine b),
    Event.out "\tSetting HSCAN to operate at 125kbit/s... ".toList,
    Event.call dev (Call.setBaudrateFor NetID.HSCAN 125000) (Ret.bool true),
    Event.out "OK\n".toList,
    Event.out "\tGetting HSCAN Baudrate... (expected to be unchanged) ".toList,
    Event.call dev (Call.getBaudrateFor NetID.HSCAN) (Ret.int b),
    Event.out (baudLine b),
    Event.out "\tGetting HSCANFD Baudrate... ".toList,
    Event.call dev (Call.getFDBaudrateFor NetID.HSCAN) (Ret.int fd),
    Event.out (baudLine fd),
    Event.out "\tSetting HSCANFD to operate at 8Mbit/s... ".toList,
    Event.call dev (Call.setFDBaudrateFor NetID.HSCAN 8000000) (Ret.bool true),
    Event.out "OK\n".toList,
    Event.out "\tGetting HSCANFD Baudrate... (expected to be unchanged) ".toList,
    Event.call dev (Call.getFDBaudrateFor NetID.HSCAN) (Ret.int fd),
    Event.out (baudLine fd),
    Event.out "\tSetting settings temporarily... ".toList,
    Event.call dev (Call.apply true) (Ret.bool true),
    Event.out "OK\n".toList,
    Event.out "\tGetting HSCAN Baudrate... ".toList,
    Event.call dev (Call.getBaudrateFor NetID.HSCAN) (Ret.int 125000),
    Event.out "OK, 125kbit/s\n".toList,
    Event.out "\tGetting HSCANFD Baudrate... ".toList,
    Event.call dev (Call.getFDBaudrateFor NetID.HSCAN) (Ret.int 8000000),
    Event.out "OK, 8000kbit/s\n".toList ]

/-- Settings for the sample library: HSCAN operates at 500 kbit/s and 2 Mbit/s. -/
def sampleSettings : Settings :=
  { baud := fun _ => 500000, fdBaud := fun _ => 2000000,
    pendingBaud := fun _ => 500000, pendingFD := fun _ => 2000000 }

/-- An Ethernet message with an empty payload. -/
def sampleEmpty : EthernetMessage :=
  { network := NetID.OP_Ethernet2, timestamp := 7, data := [] }

/-! ## The output stream -/

theorem padLeft_zero (fill : Char) (s : Text) : padLeft 0 fill s = s := by
  simp [padLeft]

/-! ## The callback -/

theorem canBytes_run {σ : Type} (data : List Byte) (w : World σ) (hf : w.cout.fill = '0')
    (hw : w.cout.width = 0) :
    data.foldl
        (fun w databyte => w.say [Item.hex, Item.setw 2, Item.nat databyte.val, Item.chr ' ']) w
      = { lib := w.lib,
          cout := if data = [] then w.cout else { base := Base.hex, fill := '0', width := 0 },
          trace := w.trace ++ data.map (fun b => Event.out (byteText b)) } := by
  induction data generalizing w with
  | nil => simp
  | cons b rest ih =>
    rw [List.foldl_cons, ih]
    · simp [World.say, render, Item.put, Fmt.field, natText, byteText, hf, padLeft_zero]
    · simp [World.say, render, Item.put, Fmt.field, hf]
    · simp [World.say, render, Item.put, Fmt.field]

theorem callback_can {σ : Type} (L : Library σ) (m : CANMessage) (w : World σ) :
    callback L (Message.can m) w
      = { lib := w.lib, cout := { base := Base.dec, fill := '0', width := 0 },
          trace := w.trace ++ canEvents m w.cout } := by
  unfold callback
  simp only []
  rw [canBytes_run]
  · cases h1 : m.isCANFD <;> cases h2 : m.baudrateSwitch <;> cases h3 : m.data <;>
      simp [World.say, render, Item.put, Fmt.field, natText, canEvents, arbidText, padLeft_zero,
        h1, h2, h3]
  · simp [World.say, render, Item.put, Fmt.field]
  · simp [World.say, render, Item.put, Fmt.field]

theorem ethDump_run {σ : Type} (data : List Byte) (i : Nat) (w : World σ)
    (hf : w.cout.fill = '0' ∨ i % 8 = 0) (hw : w.cout.width = 0) :
    ethDump data i w
      = { lib := w.lib,
          cout := if data = [] then w.cout else { base := Base.hex, fill := '0', width := 0 },
          trace := w.trace ++ dumpEvents data i } := by
  induction data generalizing i w with
  | nil => simp [ethDump, dumpEvents]
  | cons b rest ih =>
    unfold ethDump
    simp only []
    rw [ih]
    · by_cases h8 : i % 8 = 0
      · simp [World.say, render, Item.put, Fmt.field, natText, byteText, rowHead, dumpEvents,
          padLeft_zero, h8, hw]
      · have hf0 : w.cout.fill = '0' := by
          rcases hf with h | h
          · exact h
          · exact absurd h h8
        simp [World.say, render, Item.put, Fmt.field, natText, byteText, dumpEvents,
          padLeft_zero, h8, hf0]
    · left
      by_cases h8 : i % 8 = 0
      · simp [World.say, render, Item.put, Fmt.field, h8]
      · have hf0 : w.cout.fill = '0' := by
          rcases hf with h | h
          · exact h
          · exact absurd h h8
        simp [World.say, render, Item.put, Fmt.field, h8, hf0]
    · simp [World.say, render, Item.put, Fmt.field]

theorem callback_ethernet {σ : Type} (L : Library σ) (m : EthernetMessage) (w : World σ) :
    callback L (Message.ethernet m) w
      = { lib := w.lib, cout := callbackFmt (Message.ethernet m) w.cout,
          trace := w.trace ++ ethEvents L m w.cout } := by
  unfold callback
  simp only []
  rw [ethDump_run]
  · cases h3 : m.data <;>
      simp [World.say, render, Item.put, Fmt.field, natText, ethEvents, callbackFmt, padLeft_zero,
        h3]
  · right; rfl
  · simp [World.say, render, Item.put, Fmt.field]

theorem callback_run {σ : Type} (L : Library σ) (m : Message) (w : World σ) :
    callback L m w
      = { lib := w.lib, cout := callbackFmt m w.cout,
          trace := w.trace ++ callbackEvents L m w.cout } := by
  cases m with
  | can cm => rw [callback_can]; rfl
  | ethernet em => rw [callback_ethernet]; rfl
  | other code n t d => simp [callback, callbackFmt, callbackEvents]

theorem stream_run {σ : Type} (L : Library σ) (dev : Nat) (msgs : List Message) (w : World σ) :
    msgs.foldl (fun w m => callback L m (w.note (Event.received dev m))) w
      = { lib := w.lib, cout := streamFmt msgs w.cout,
          trace := w.trace ++ streamEvents L dev msgs w.cout } := by
  induction msgs generalizing w with
  | nil => simp [streamFmt, streamEvents]
  | cons m rest ih =>
    rw [List.foldl_cons, ih, callback_run]
    simp [World.note, streamFmt, streamEvents]

/-! ## Statements of the main thread -/

theorem render_plain_fmt (items : List Item) (c : Fmt) (hp : items.all Item.plain = true)
    (hw : c.width = 0) : (render items c).2 = c := by
  induction items generalizing c with
  | nil => rfl
  | cons it rest ih =>
    simp only [List.all_cons, Bool.and_eq_true] at hp
    have h1 : (it.put c).2 = c := by
      cases it <;> simp [Item.put, Fmt.field, Item.plain] at hp ⊢ <;>
        (cases c; simp_all)
    simp only [render]
    rw [h1]
    exact ih c hp.2 hw

theorem say_plain {σ : Type} (w : World σ) (items : List Item)
    (hp : items.all Item.plain = true) (hw : w.cout.width = 0) :
    w.say items = { lib := w.lib, cout := w.cout, trace := w.trace ++ [outAt w.cout items] } := by
  simp [World.say, outAt, render_plain_fmt items w.cout hp hw]

theorem baudItems_plain (baud : Int) : (baudItems baud).all Item.plain = true := by
  unfold baudItems
  split <;> rfl

theorem reportBaud_run {σ : Type} (baud : Int) (w : World σ) (hw : w.cout.width = 0) :
    reportBaud baud w
      = { lib := w.lib, cout := w.cout, trace := w.trace ++ [outAt w.cout (baudItems baud)] } := by
  rw [← say_plain w _ (baudItems_plain baud) hw]
  unfold reportBaud baudItems
  split <;> rfl

theorem reportRet_run {σ : Type} (ret : Bool) (w : World σ) (hw : w.cout.width = 0) :
    reportRet ret w
      = { lib := w.lib, cout := w.cout, trace := w.trace ++ [outAt w.cout (retItems ret)] } := by
  rw [← say_plain w _ (by rfl) hw]
  rfl

theorem settingsPhase_run {σ : Type} (L : Library σ) (dev : Nat) (w : World σ)
    (hw : w.cout.width = 0) :
    ∃ (r : SettingsResults) (s : σ),
      settingsPhase L dev w
        = { lib := s, cout := w.cout, trace := w.trace ++ settingsEvents dev w.cout r } := by
  unfold settingsPhase
  simp (disch := first | decide | exact hw | simp [Item.plain]) only [World.invoke, say_plain,
    reportBaud_run, reportRet_run, List.append_assoc, List.singleton_append, List.cons_append,
    List.nil_append]
  exact ⟨⟨_, _, _, _, _, _, _, _, _, _⟩, _, rfl⟩

theorem stream_run_unfolded {σ : Type} (L : Library σ) (dev : Nat) (msgs : List Message)
    (w : World σ) :
    msgs.foldl (fun w m => callback L m
        { lib := w.lib, cout := w.cout, trace := w.trace ++ [Event.received dev m] }) w
      = { lib := w.lib, cout := streamFmt msgs w.cout,
          trace := w.trace ++ streamEvents L dev msgs w.cout } :=
  stream_run L dev msgs w

theorem callbackFmt_width (m : Message) (c : Fmt) (hw : c.width = 0) :
    (callbackFmt m c).width = 0 := by
  cases m <;> simp [callbackFmt, hw]

theorem streamFmt_width (msgs : List Message) (c : Fmt) (hw : c.width = 0) :
    (streamFmt msgs c).width = 0 := by
  induction msgs generalizing c with
  | nil => exact hw
  | cons m rest ih => exact ih _ (callbackFmt_width m c hw)

theorem streamPhase_run {σ : Type} (L : Library σ) (dev : Nat) (w : World σ)
    (hw : w.cout.width = 0) :
    ∃ (r : StreamResults) (s : σ),
      streamPhase L dev w
        = { lib := s, cout := streamFmt r.streamed w.cout,
            trace := w.trace ++ streamPhaseEvents L dev w.cout r } := by
  unfold streamPhase
  simp (disch := first | decide | exact hw | exact streamFmt_width _ _ hw | simp [Item.plain])
    only [World.invoke,
    World.perform, World.note, say_plain, stream_run_unfolded, List.append_assoc, List.singleton_append,
    List.cons_append, List.nil_append]
  exact ⟨⟨_, _, _⟩, _, rfl⟩

theorem tail_run {σ : Type} (L : Library σ) (dev : Nat) (w : World σ) (hw : w.cout.width = 0) :
    ∃ (r : TailResults) (s : σ),
      teardownPhase L dev (transmitPhase L dev w)
        = { lib := s, cout := w.cout, trace := w.trace ++ tailEvents dev w.cout r } := by
  unfold teardownPhase transmitPhase
  simp (disch := first | decide | exact hw | simp [Item.plain]) only [World.invoke, World.note,
    say_plain, reportRet_run, List.append_assoc, List.singleton_append, List.cons_append,
    List.nil_append]
  exact ⟨⟨_, _, _, _, _⟩, _, rfl⟩

theorem errors_run {σ : Type} (errs : List Text) (w : World σ) (hw : w.cout.width = 0) :
    errs.foldl (fun w err => w.say [Item.str "\t", Item.text err, Item.str "\n"]) w
      = { lib := w.lib, cout := w.cout,
          trace := w.trace
            ++ errs.map (fun err => outAt w.cout [Item.str "\t", Item.text err, Item.str "\n"]) } := by
  induction errs generalizing w with
  | nil => simp
  | cons e rest ih =>
    rw [List.foldl_cons, ih _ (by rw [say_plain _ _ (by rfl) hw]; exact hw),
      say_plain _ _ (by rfl) hw]
    simp

theorem onlinePhase_run {σ : Type} (L : Library σ) (dev : Nat) (w : World σ)
    (hw : w.cout.width = 0) :
    (∃ (closed : Bool) (s : σ), onlinePhase L dev w
        = { lib := s, cout := w.cout,
            trace := w.trace ++
              [ outAt w.cout [Item.str "\tGoing online... "],
                Event.call dev Call.goOnline (Ret.bool false),
                outAt w.cout [Item.str "FAIL", Item.endl],
                Event.call dev Call.close (Ret.bool closed) ] })
    ∨ (∃ (closed : Bool) (s : σ), onlinePhase L dev w
        = { lib := s, cout := w.cout,
            trace := w.trace ++
              [ outAt w.cout [Item.str "\tGoing online... "],
                Event.call dev Call.goOnline (Ret.bool true),
                outAt w.cout [Item.str "OK", Item.endl],
                outAt w.cout [Item.str "\tChecking online status... "],
                Event.call dev Call.isOnline (Ret.bool false),
                outAt w.cout [Item.str "FAIL\n", Item.endl],
                Event.call dev Call.close (Ret.bool closed) ] })
    ∨ (∃ (sr : StreamResults) (tr : TailResults) (s : σ), onlinePhase L dev w
        = { lib := s, cout := streamFmt sr.streamed w.cout,
            trace := w.trace ++
              ([ outAt w.cout [Item.str "\tGoing online... "],
                Event.call dev Call.goOnline (Ret.bool true),
                outAt w.cout [Item.str "OK", Item.endl],
                outAt w.cout [Item.str "\tChecking online status... "],
                Event.call dev Call.isOnline (Ret.bool true),
                outAt w.cout [Item.str "OK", Item.endl] ]
              ++ streamPhaseEvents L dev w.cout sr
              ++ tailEvents dev (streamFmt sr.streamed w.cout) tr) }) := by
  unfold onlinePhase
  simp only []
  cases h1 : (w.say [Item.str "\tGoing online... "]).invoke dev Call.goOnline Ret.bool
      (L.goOnline dev) with
  | mk b1 w1 =>
    have e1 : w1 = World.mk (L.goOnline dev w.lib).2 w.cout
        (w.trace ++ [outAt w.cout [Item.str "\tGoing online... "],
          Event.call dev Call.goOnline (Ret.bool b1)]) := by
      have := congrArg Prod.snd h1
      have hb := congrArg Prod.fst h1
      simp (disch := first | decide | exact hw) only [World.invoke, say_plain] at this hb
      rw [← this, ← hb]
      simp
    subst e1
    cases b1 with
    | false =>
      left
      simp (disch := first | decide | exact hw) only [World.invoke, say_plain,
        List.append_assoc, List.singleton_append, List.cons_append, List.nil_append]
      exact ⟨_, _, rfl⟩
    | true =>
      right
      simp only [Bool.not_true, Bool.false_eq_true, if_false]
      cases h2 : ((World.mk (L.goOnline dev w.lib).2 w.cout
          (w.trace ++ [outAt w.cout [Item.str "\tGoing online... "],
            Event.call dev Call.goOnline (Ret.bool true)])).say
          [Item.str "OK", Item.endl]).say [Item.str "\tChecking online status... "] |>.invoke dev
          Call.isOnline Ret.bool (L.isOnline dev) with
      | mk b2 w2 =>
        have e2 : w2 = World.mk (L.isOnline dev (L.goOnline dev w.lib).2).2 w.cout
            (w.trace ++ [outAt w.cout [Item.str "\tGoing online... "],
              Event.call dev Call.goOnline (Ret.bool true),
              outAt w.cout [Item.str "OK", Item.endl],
              outAt w.cout [Item.str "\tChecking online status... "],
              Event.call dev Call.isOnline (Ret.bool b2)]) := by
          have := congrArg Prod.snd h2
          have hb := congrArg Prod.fst h2
          simp (disch := first | decide | exact hw) only [World.invoke, say_plain] at this hb
          rw [← this, ← hb]
          simp
        subst e2
        cases b2 with
        | false =>
          left
          simp (disch := first | decide | exact hw) only [World.invoke, say_plain,
            List.append_assoc, List.singleton_append, List.cons_append, List.nil_append]
          exact ⟨_, _, rfl⟩
        | true =>
          right
          simp only [Bool.not_true, Bool.false_eq_true, if_false]
          simp (disch := first | decide | exact hw) only [say_plain]
          obtain ⟨sr, s3, h3⟩ := streamPhase_run L dev
            (World.mk (L.isOnline dev (L.goOnline dev w.lib).2).2 w.cout
               (w.trace ++ [outAt w.cout [Item.str "\tGoing online... "],
                Event.call dev Call.goOnline (Ret.bool true),
                outAt w.cout [Item.str "OK", Item.endl],
                outAt w.cout [Item.str "\tChecking online status... "],
                Event.call dev Call.isOnline (Ret.bool true)]
                ++ [outAt w.cout [Item.str "OK", Item.endl]])) hw
          rw [h3]
          obtain ⟨tr, s4, h4⟩ := tail_run L dev
            (World.mk s3 (streamFmt sr.streamed w.cout)
               ((w.trace ++ [outAt w.cout [Item.str "\tGoing online... "],
                Event.call dev Call.goOnline (Ret.bool true),
                outAt w.cout [Item.str "OK", Item.endl],
                outAt w.cout [Item.str "\tChecking online status... "],
                Event.call dev Call.isOnline (Ret.bool true)]
                ++ [outAt w.cout [Item.str "OK", Item.endl]])
                ++ streamPhaseEvents L dev w.cout sr)) (streamFmt_width _ _ hw)
          rw [h4]
          exact ⟨sr, tr, s4, by simp⟩

theorem say_connect {σ : Type} (device : DeviceInfo) (w : World σ) :
    w.say [Item.str "Connecting to ", Item.text device.type, Item.chr ' ',
        Item.text device.serial, Item.str "... "]
      = World.mk w.lib { w.cout with width := 0 } (w.trace ++ [outAt w.cout (connectItems device)]) := by
  simp [World.say, outAt, connectItems, render, Item.put, Fmt.field]

/-- Every pass of the loop body takes one of the four ways of `Outcome`, and its events
are those of `bodyEvents`. -/
theorem deviceBody_run {σ : Type} (L : Library σ) (dev : Nat) (device : DeviceInfo)
    (w : World σ) :
    ∃ (o : Outcome) (s : σ),
      deviceBody L dev device w
        = World.mk s (bodyFmt w.cout o) (w.trace ++ bodyEvents L dev device w.cout o) := by
  unfold deviceBody
  simp only [say_connect]
  have hw : ({ w.cout with width := 0 } : Fmt).width = 0 := rfl
  generalize hc : ({ w.cout with width := 0 } : Fmt) = c at hw
  cases h1 : (World.mk w.lib c (w.trace ++ [outAt w.cout (connectItems device)])).invoke dev
      Call.open Ret.bool (L.open_ dev) with
  | mk b1 w1 =>
    have e1 : w1 = World.mk (L.open_ dev w.lib).2 c
        (w.trace ++ [outAt w.cout (connectItems device), Event.call dev Call.open (Ret.bool b1)]) := by
      have := congrArg Prod.snd h1
      have hb := congrArg Prod.fst h1
      simp only [World.invoke] at this hb
      rw [← this, ← hb]
      simp
    subst e1
    cases b1 with
    | false =>
      simp (disch := first | decide | exact hw) only [say_plain, errors_run,
        List.append_assoc, List.singleton_append, List.cons_append, List.nil_append,
        Bool.not_false, if_true]
      refine ⟨Outcome.openFailed (L.getErrors (L.open_ dev w.lib).2).1,
        (L.getErrors (L.open_ dev w.lib).2).2, ?_⟩
      subst hc
      rfl
    | true =>
      simp (disch := first | decide | exact hw) only [say_plain, Bool.not_true,
        Bool.false_eq_true, if_false]
      obtain ⟨st, s2, h2⟩ := settingsPhase_run L dev
        (World.mk (L.open_ dev w.lib).2 c
          ((w.trace ++ [outAt w.cout (connectItems device),
            Event.call dev Call.open (Ret.bool true)]) ++ [outAt c [Item.str "OK", Item.endl]])) hw
      rw [h2]
      rcases onlinePhase_run L dev
        (World.mk s2 c
          (((w.trace ++ [outAt w.cout (connectItems device),
            Event.call dev Call.open (Ret.bool true)]) ++ [outAt c [Item.str "OK", Item.endl]])
            ++ settingsEvents dev c st)) hw with ⟨cl, s3, h3⟩ | ⟨cl, s3, h3⟩ | ⟨sr, tr, s3, h3⟩
      · rw [h3]
        refine ⟨Outcome.offline st cl, s3, ?_⟩
        subst hc
        simp only [bodyEvents, bodyFmt, List.append_assoc, List.singleton_append,
          List.cons_append, List.nil_append]
      · rw [h3]
        refine ⟨Outcome.unconfirmed st cl, s3, ?_⟩
        subst hc
        simp only [bodyEvents, bodyFmt, List.append_assoc, List.singleton_append,
          List.cons_append, List.nil_append]
      · rw [h3]
        refine ⟨Outcome.completed st sr tr, s3, ?_⟩
        subst hc
        simp only [bodyEvents, bodyFmt, List.append_assoc, List.singleton_append,
          List.cons_append, List.nil_append]

/-- The events of one pass of the loop body are those of `bodyEvents`, for one of the
four outcomes. -/
theorem runDevice_eq {σ : Type} (L : Library σ) (dev : Nat) (device : DeviceInfo) (s : σ)
    (f : Fmt) : ∃ o : Outcome, runDevice L dev device s f = bodyEvents L dev device f o := by
  obtain ⟨o, s1, h⟩ := deviceBody_run L dev device (World.start s f)
  refine ⟨o, ?_⟩
  unfold runDevice
  rw [h]
  simp [World.start]

/-! ## Observations on the events of the loop body -/

theorem resultsOn_append (dev : Nat) (a b : List Event) :
    resultsOn dev (a ++ b) = resultsOn dev a ++ resultsOn dev b := by
  induction a with
  | nil => rfl
  | cons e rest ih =>
    cases e <;> simp [resultsOn, ih]
    split <;> simp

theorem resultsOn_outAt (dev : Nat) (c : Fmt) (items : List Item) (rest : List Event) :
    resultsOn dev (outAt c items :: rest) = resultsOn dev rest := rfl

theorem resultsOn_call (dev : Nat) (c : Call) (r : Ret) (rest : List Event) :
    resultsOn dev (Event.call dev c r :: rest) = (c, r) :: resultsOn dev rest := by
  simp [resultsOn]

theorem resultsOn_call_ne (dev d : Nat) (c : Call) (r : Ret) (rest : List Event) (h : d ≠ dev) :
    resultsOn dev (Event.call d c r :: rest) = resultsOn dev rest := by
  simp [resultsOn, h]

theorem resultsOn_map_out (dev : Nat) (g : α → Text) (l : List α) :
    resultsOn dev (l.map (fun a => Event.out (g a))) = [] := by
  induction l with
  | nil => rfl
  | cons a rest ih => simpa [resultsOn] using ih

theorem resultsOn_dumpEvents (dev : Nat) (data : List Byte) (i : Nat) :
    resultsOn dev (dumpEvents data i) = [] := by
  induction data generalizing i with
  | nil => rfl
  | cons b rest ih =>
    unfold dumpEvents
    split <;> simp [resultsOn, ih]

theorem resultsOn_callbackEvents {σ : Type} (dev : Nat) (L : Library σ) (m : Message) (c : Fmt) :
    resultsOn dev (callbackEvents L m c) = [] := by
  cases m with
  | can cm =>
    simp only [callbackEvents, canEvents, resultsOn_append, resultsOn_map_out]
    cases cm.isCANFD <;> cases cm.baudrateSwitch <;> simp [resultsOn]
  | ethernet em =>
    simp [callbackEvents, ethEvents, resultsOn_append, resultsOn_dumpEvents, resultsOn]
  | other code n t d => rfl

theorem resultsOn_streamEvents {σ : Type} (dev d : Nat) (L : Library σ) (msgs : List Message)
    (c : Fmt) : resultsOn dev (streamEvents L d msgs c) = [] := by
  induction msgs generalizing c with
  | nil => rfl
  | cons m rest ih =>
    simp [streamEvents, resultsOn, resultsOn_append, resultsOn_callbackEvents, ih]

/-- The calls of lines 38-100 with their results. -/
theorem resultsOn_settingsEvents (dev : Nat) (c : Fmt) (r : SettingsResults) :
    resultsOn dev (settingsEvents dev c r)
      = [ (Call.getBaudrateFor NetID.HSCAN, Ret.int r.baud1),
          (Call.setBaudrateFor NetID.HSCAN 125000, Ret.bool r.setBaud),
          (Call.getBaudrateFor NetID.HSCAN, Ret.int r.baud2),
          (Call.getFDBaudrateFor NetID.HSCAN, Ret.int r.fd1),
          (Call.setFDBaudrateFor NetID.HSCAN 8000000, Ret.bool r.setFD),
          (Call.getFDBaudrateFor NetID.HSCAN, Ret.int r.fd2),
          (Call.apply true, Ret.bool r.applyTemporary),
          (Call.getBaudrateFor NetID.HSCAN, Ret.int r.baud3),
          (Call.getFDBaudrateFor NetID.HSCAN, Ret.int r.fd3),
          (Call.apply false, Ret.bool r.applyPermanent) ] := by
  simp [settingsEvents, resultsOn_outAt, resultsOn_call]
  rfl

/-- The calls of lines 123-197 with their results. -/
theorem resultsOn_streamPhaseEvents {σ : Type} (L : Library σ) (dev : Nat) (c : Fmt)
    (r : StreamResults) :
    resultsOn dev (streamPhaseEvents L dev c r)
      = [ (Call.enableMessagePolling, Ret.unit),
          (Call.setPollingMessageLimit 100000, Ret.unit),
          (Call.addMessageCallback, Ret.handle r.handler),
          (Call.removeMessageCallback r.handler, Ret.unit),
          (Call.getMessages, Ret.messages r.polled) ] := by
  simp [streamPhaseEvents, resultsOn_outAt, resultsOn_call, resultsOn_append,
    resultsOn_streamEvents, resultsOn]

/-- The calls of lines 206-244 with their results. -/
theorem resultsOn_tailEvents (dev : Nat) (c : Fmt) (r : TailResults) :
    resultsOn dev (tailEvents dev c r)
      = [ (Call.transmit (Message.can txMessage), Ret.bool r.tx1),
          (Call.transmit (Message.ethernet ethTxMessage), Ret.bool r.tx2),
          (Call.goOffline, Ret.bool r.goOffline),
          (Call.applyDefaults, Ret.bool r.applyDefaults),
          (Call.close, Ret.bool r.close) ] := by
  simp [tailEvents, resultsOn_outAt, resultsOn_call, resultsOn]

theorem resultsOn_bodyEvents {σ : Type} (L : Library σ) (dev : Nat) (device : DeviceInfo)
    (c : Fmt) (o : Outcome) :
    resultsOn dev (bodyEvents L dev device c o) = bodyResults o := by
  cases o <;>
    simp [bodyEvents, bodyResults, resultsOn_append, resultsOn_settingsEvents,
      resultsOn_streamPhaseEvents, resultsOn_tailEvents, resultsOn_outAt, resultsOn_call,
      resultsOn_map_out, resultsOn_streamEvents, outAt, resultsOn]

theorem errorReads_append (a b : List Event) :
    errorReads (a ++ b) = errorReads a ++ errorReads b := by
  induction a with
  | nil => rfl
  | cons e rest ih => cases e <;> simp [errorReads, ih]

theorem errorReads_map_out (g : α → Text) (l : List α) :
    errorReads (l.map (fun a => Event.out (g a))) = [] := by
  induction l with
  | nil => rfl
  | cons a rest ih => simpa [errorReads] using ih

theorem errorReads_dumpEvents (data : List Byte) (i : Nat) :
    errorReads (dumpEvents data i) = [] := by
  induction data generalizing i with
  | nil => rfl
  | cons b rest ih =>
    unfold dumpEvents
    split <;> simp [errorReads, ih]

theorem errorReads_callbackEvents {σ : Type} (L : Library σ) (m : Message) (c : Fmt) :
    errorReads (callbackEvents L m c) = [] := by
  cases m with
  | can cm =>
    simp only [callbackEvents, canEvents, errorReads_append, errorReads_map_out]
    cases cm.isCANFD <;> cases cm.baudrateSwitch <;> simp [errorReads]
  | ethernet em =>
    simp [callbackEvents, ethEvents, errorReads_append, errorReads_dumpEvents, errorReads]
  | other code n t d => rfl

theorem errorReads_streamEvents {σ : Type} (d : Nat) (L : Library σ) (msgs : List Message)
    (c : Fmt) : errorReads (streamEvents L d msgs c) = [] := by
  induction msgs generalizing c with
  | nil => rfl
  | cons m rest ih =>
    simp [streamEvents, errorReads, errorReads_append, errorReads_callbackEvents, ih]

theorem errorReads_bodyEvents {σ : Type} (L : Library σ) (dev : Nat) (device : DeviceInfo)
    (c : Fmt) (o : Outcome) :
    errorReads (bodyEvents L dev device c o)
      = match o with
        | Outcome.openFailed errs => [errs]
        | _ => [] := by
  cases o <;>
    simp [bodyEvents, errorReads_append, settingsEvents, streamPhaseEvents, tailEvents,
      errorReads_map_out, errorReads_streamEvents, outAt, errorReads]

theorem outAt_fail (c : Fmt) (hw : c.width = 0) :
    outAt c [Item.str "FAIL", Item.endl] = Event.out "FAIL\n".toList := by
  simp [outAt, render, Item.put, Fmt.field, hw, padLeft_zero]

theorem outAt_endl (c : Fmt) : outAt c [Item.endl] = Event.out "\n".toList := by
  simp [outAt, render, Item.put]

theorem outAt_error (c : Fmt) (hw : c.width = 0) (err : Text) :
    outAt c [Item.str "\t", Item.text err, Item.str "\n"]
      = Event.out ("\t".toList ++ err ++ "\n".toList) := by
  simp [outAt, render, Item.put, Fmt.field, hw, padLeft_zero]

/-! ## Similar traces -/

theorem receivedBy_append (a b : List Event) :
    receivedBy (a ++ b) = receivedBy a ++ receivedBy b := by
  induction a with
  | nil => rfl
  | cons e rest ih => cases e <;> simp [receivedBy, ih]

theorem receivedBy_map_out (g : α → Text) (l : List α) :
    receivedBy (l.map (fun a => Event.out (g a))) = [] := by
  induction l with
  | nil => rfl
  | cons a rest ih => simpa [receivedBy] using ih

theorem receivedBy_dumpEvents (data : List Byte) (i : Nat) :
    receivedBy (dumpEvents data i) = [] := by
  induction data generalizing i with
  | nil => rfl
  | cons b rest ih =>
    unfold dumpEvents
    split <;> simp [receivedBy, ih]

theorem receivedBy_callbackEvents {σ : Type} (L : Library σ) (m : Message) (c : Fmt) :
    receivedBy (callbackEvents L m c) = [] := by
  cases m with
  | can cm =>
    simp only [callbackEvents, canEvents, receivedBy_append, receivedBy_map_out]
    cases cm.isCANFD <;> cases cm.baudrateSwitch <;> simp [receivedBy]
  | ethernet em =>
    simp [callbackEvents, ethEvents, receivedBy_append, receivedBy_dumpEvents, receivedBy]
  | other code n t d => rfl

theorem receivedBy_streamEvents {σ : Type} (d : Nat) (L : Library σ) (msgs : List Message)
    (c : Fmt) : receivedBy (streamEvents L d msgs c) = msgs := by
  induction msgs generalizing c with
  | nil => rfl
  | cons m rest ih =>
    simp [streamEvents, receivedBy, receivedBy_append, receivedBy_callbackEvents, ih]

theorem receivedBy_bodyEvents {σ : Type} (L : Library σ) (dev : Nat) (device : DeviceInfo)
    (c : Fmt) (o : Outcome) :
    receivedBy (bodyEvents L dev device c o)
      = match o with
        | Outcome.completed _ sr _ => sr.streamed
        | _ => [] := by
  cases o <;>
    simp [bodyEvents, receivedBy_append, settingsEvents, streamPhaseEvents, tailEvents,
      receivedBy_map_out, receivedBy_streamEvents, outAt, receivedBy]

theorem Similar.rfl (e : Event) : Similar e e := Or.inl (Eq.refl e)

theorem similar_call (d : Nat) (c : Call) (r r' : Ret) (h : Call.reported c = true) :
    Similar (Event.call d c r) (Event.call d c r') :=
  Or.inr (Or.inl ⟨d, c, r, r', h, Eq.refl _, Eq.refl _⟩)

theorem similar_out (a b : Text) (ha : statusText a = true) (hb : statusText b = true) :
    Similar (Event.out a) (Event.out b) :=
  Or.inr (Or.inr ⟨a, b, ha, hb, Eq.refl _, Eq.refl _⟩)

theorem forall2_similar_refl (l : List Event) : List.Forall₂ Similar l l := by
  induction l with
  | nil => exact List.Forall₂.nil
  | cons e rest ih => exact List.Forall₂.cons (Similar.rfl e) ih

theorem forall2_append {R : Event → Event → Prop} {a a' b b' : List Event}
    (h1 : List.Forall₂ R a a') (h2 : List.Forall₂ R b b') : List.Forall₂ R (a ++ b) (a' ++ b') := by
  induction h1 with
  | nil => exact h2
  | cons h _ ih => exact List.Forall₂.cons h ih

theorem status_baud (c : Fmt) (hw : c.width = 0) (baud : Int) :
    statusText (render (baudItems baud) c).1 = true := by
  unfold baudItems
  split <;>
    simp [render, Item.put, Fmt.field, hw, padLeft_zero, statusText, List.isPrefixOf]

theorem status_ret (c : Fmt) (hw : c.width = 0) (ret : Bool) :
    statusText (render (retItems ret) c).1 = true := by
  cases ret <;>
    simp [retItems, render, Item.put, Fmt.field, hw, padLeft_zero, statusText, List.isPrefixOf]

theorem status_permanent (c : Fmt) (hw : c.width = 0) (ret : Bool) :
    statusText (render [Item.str (if ret then "OK\n\n" else "FAIL\n\n")] c).1 = true := by
  cases ret <;>
    simp [render, Item.put, Fmt.field, hw, padLeft_zero, statusText, List.isPrefixOf]

theorem status_close (c : Fmt) (hw : c.width = 0) (ret : Bool) :
    statusText (render [Item.str (if ret then "OK\n" else "FAIL\n"), Item.endl] c).1 = true := by
  cases ret <;>
    simp [render, Item.put, Fmt.field, hw, padLeft_zero, statusText, List.isPrefixOf]

theorem similar_baud (c : Fmt) (hw : c.width = 0) (b b' : Int) :
    Similar (outAt c (baudItems b)) (outAt c (baudItems b')) :=
  similar_out _ _ (status_baud c hw b) (status_baud c hw b')

theorem similar_ret (c : Fmt) (hw : c.width = 0) (b b' : Bool) :
    Similar (outAt c (retItems b)) (outAt c (retItems b')) :=
  similar_out _ _ (status_ret c hw b) (status_ret c hw b')

theorem similar_permanent (c : Fmt) (hw : c.width = 0) (b b' : Bool) :
    Similar (outAt c [Item.str (if b then "OK\n\n" else "FAIL\n\n")])
      (outAt c [Item.str (if b' then "OK\n\n" else "FAIL\n\n")]) :=
  similar_out _ _ (status_permanent c hw b) (status_permanent c hw b')

theorem similar_close (c : Fmt) (hw : c.width = 0) (b b' : Bool) :
    Similar (outAt c [Item.str (if b then "OK\n" else "FAIL\n"), Item.endl])
      (outAt c [Item.str (if b' then "OK\n" else "FAIL\n"), Item.endl]) :=
  similar_out _ _ (status_close c hw b) (status_close c hw b')

theorem settings_similar (dev : Nat) (c : Fmt) (hw : c.width = 0) (r r' : SettingsResults) :
    List.Forall₂ Similar (settingsEvents dev c r) (settingsEvents dev c r') := by
  unfold settingsEvents
  repeat first
    | exact List.Forall₂.nil
    | refine List.Forall₂.cons ?_ ?_
    | with_reducible exact Similar.rfl _
    | ((with_reducible refine similar_call _ _ _ _ ?_); rfl)
    | with_reducible exact similar_baud c hw _ _
    | with_reducible exact similar_ret c hw _ _
    | with_reducible exact similar_permanent c hw _ _

theorem tail_similar (dev : Nat) (c : Fmt) (hw : c.width = 0) (r r' : TailResults) :
    List.Forall₂ Similar (tailEvents dev c r) (tailEvents dev c r') := by
  unfold tailEvents
  repeat first
    | exact List.Forall₂.nil
    | refine List.Forall₂.cons ?_ ?_
    | with_reducible exact Similar.rfl _
    | ((with_reducible refine similar_call _ _ _ _ ?_); rfl)
    | with_reducible exact similar_ret c hw _ _
    | with_reducible exact similar_close c hw _ _

theorem lookup_cons_eq (a k : Call) (v : Ret) (l : List (Call × Ret)) :
    List.lookup a ((k, v) :: l) = if a = k then some v else List.lookup a l := by
  by_cases h : a = k
  · simp [List.lookup, h]
  · have : (a == k) = false := by simpa using h
    simp [List.lookup, this, h]

/-! ## The whole program -/

theorem sayAll_run {σ α : Type} (g : α → List Item) (hg : ∀ x, (g x).all Item.plain = true)
    (l : List α) (w : World σ) (hw : w.cout.width = 0) :
    l.foldl (fun w x => w.say (g x)) w
      = World.mk w.lib w.cout (w.trace ++ l.map (fun x => outAt w.cout (g x))) := by
  induction l generalizing w with
  | nil => simp
  | cons e rest ih =>
    rw [List.foldl_cons, ih _ (by rw [say_plain _ _ (hg e) hw]; exact hw),
      say_plain _ _ (hg e) hw]
    simp

theorem resultsOn_map_outAt (dev : Nat) (c : Fmt) (g : α → List Item) (l : List α) :
    resultsOn dev (l.map (fun a => outAt c (g a))) = [] :=
  resultsOn_map_out dev (fun a => (render (g a) c).1) l

theorem resultsOn_bodyEvents_ne {σ : Type} (L : Library σ) (dev i : Nat) (device : DeviceInfo)
    (c : Fmt) (o : Outcome) (h : dev ≠ i) :
    resultsOn i (bodyEvents L dev device c o) = [] := by
  cases o <;>
    simp [bodyEvents, settingsEvents, streamPhaseEvents, tailEvents, resultsOn_append,
      resultsOn_map_out, resultsOn_streamEvents, outAt, resultsOn, h]

/-- The loop over the devices: on the device at position `i` it makes the calls of one
pass of the loop body, and no call on a position that is not in the list. -/
theorem deviceLoop_run {σ : Type} (L : Library σ) (devices : List DeviceInfo) (k : Nat)
    (w : World σ) :
    ∃ (evs : List Event) (s : σ) (c : Fmt),
      deviceLoop L devices k w = World.mk s c (w.trace ++ evs)
      ∧ ∀ i, (k ≤ i → i < k + devices.length → ∃ o, resultsOn i evs = bodyResults o)
          ∧ (¬ (k ≤ i ∧ i < k + devices.length) → resultsOn i evs = []) := by
  induction devices generalizing k w with
  | nil =>
    refine ⟨[], w.lib, w.cout, by simp [deviceLoop], fun i => ⟨fun h1 h2 => ?_, fun _ => rfl⟩⟩
    simp at h2
    omega
  | cons d rest ih =>
    obtain ⟨o, s1, h1⟩ := deviceBody_run L k d w
    obtain ⟨evs, s2, c2, h2, h3⟩ := ih (k + 1)
      (World.mk s1 (bodyFmt w.cout o) (w.trace ++ bodyEvents L k d w.cout o))
    refine ⟨bodyEvents L k d w.cout o ++ evs, s2, c2, ?_, fun i => ⟨fun hk hi => ?_, fun hn => ?_⟩⟩
    · simp only [deviceLoop, h1, h2, List.append_assoc]
    · by_cases hik : k = i
      · subst hik
        refine ⟨o, ?_⟩
        rw [resultsOn_append, resultsOn_bodyEvents, (h3 k).2 (by omega)]
        simp
      · obtain ⟨o', ho'⟩ := (h3 i).1 (by omega) (by simp at hi; omega)
        refine ⟨o', ?_⟩
        rw [resultsOn_append, resultsOn_bodyEvents_ne _ _ _ _ _ _ hik, ho']
        simp
    · have hik : k ≠ i := by
        intro h
        subst h
        exact hn ⟨Nat.le_refl _, by simp⟩
      rw [resultsOn_append, resultsOn_bodyEvents_ne _ _ _ _ _ _ hik,
        (h3 i).2 (by simp at hn ⊢; omega)]
      simp

/-- A run of the program: the events of lines 8-24, the events of the loop, and the
last two statements. -/
theorem runMain_eq {σ : Type} (L : Library σ) (s : σ) :
    ∃ (version : Text) (supported : List Text) (devices : List DeviceInfo) (evs : List Event)
      (c : Fmt),
      runMain L s = mainHead Fmt.init version supported devices ++ evs
          ++ [outAt c [Item.str "Press any key to continue...", Item.endl], Event.cinGet]
      ∧ ∀ i, (i < devices.length → ∃ o, resultsOn i evs = bodyResults o)
          ∧ (devices.length ≤ i → resultsOn i evs = []) := by
  have hw : Fmt.init.width = 0 := rfl
  unfold runMain main
  simp (disch := first | decide | exact hw | (intro x; rfl) | simp [Item.plain])
    only [World.start, say_plain, sayAll_run, World.note,
    List.append_assoc, List.singleton_append, List.cons_append, List.nil_append]
  obtain ⟨evs, s2, c2, h2, h3⟩ := deviceLoop_run L
    (L.findAllDevices (L.getSupportedDevices (L.getVersion s).2).2).1 0
    (World.mk (L.findAllDevices (L.getSupportedDevices (L.getVersion s).2).2).2 Fmt.init
      (mainHead Fmt.init (L.getVersion s).1 (L.getSupportedDevices (L.getVersion s).2).1
        (L.findAllDevices (L.getSupportedDevices (L.getVersion s).2).2).1))
  refine ⟨(L.getVersion s).1, (L.getSupportedDevices (L.getVersion s).2).1,
    (L.findAllDevices (L.getSupportedDevices (L.getVersion s).2).2).1, evs, c2, ?_,
    fun i => ⟨fun hi => (h3 i).1 (Nat.zero_le _) (by omega), fun hi => (h3 i).2 (by omega)⟩⟩
  simp only [mainHead, List.append_assoc, List.singleton_append, List.cons_append,
    List.nil_append] at h2
  rw [h2]
  simp [World.say, outAt, mainHead]

theorem devicesFound_map_outAt (c : Fmt) (g : α → List Item) (l : List α) (rest : List Event) :
    devicesFound (l.map (fun a => outAt c (g a)) ++ rest) = devicesFound rest := by
  induction l with
  | nil => rfl
  | cons a l ih =>
    simp only [List.map_cons, List.cons_append]
    unfold devicesFound at ih ⊢
    rw [List.findSome?_cons]
    simpa [outAt] using ih

theorem devicesFound_mainHead (c : Fmt) (version : Text) (supported : List Text)
    (devices : List DeviceInfo) (rest : List Event) :
    devicesFound (mainHead c version supported devices ++ rest) = some devices.length := by
  unfold mainHead
  simp only [List.append_assoc, List.cons_append, List.nil_append]
  have h : ∀ (l : List Event), devicesFound (Event.getVersion ::
      outAt c [Item.str "Running libicsneo ", Item.text version, Item.endl] ::
      outAt c [Item.str "Supported devices:", Item.endl] ::
      Event.getSupportedDevices :: l) = devicesFound l := by
    intro l
    simp [devicesFound, outAt, List.findSome?_cons]
  rw [h, devicesFound_map_outAt]
  simp [devicesFound, outAt, List.findSome?_cons]

theorem resultsOn_mainHead (i : Nat) (c : Fmt) (version : Text) (supported : List Text)
    (devices : List DeviceInfo) : resultsOn i (mainHead c version supported devices) = [] := by
  simp [mainHead, resultsOn_append, resultsOn_map_outAt, resultsOn_map_out, resultsOn, outAt]

theorem nothing_after_last {α : Type} (x : α) (init pre post : List α) (h : x ∉ init)
    (e : init ++ [x] = pre ++ x :: post) : post = [] := by
  induction init generalizing pre with
  | nil =>
    cases pre with
    | nil => simpa using e.symm
    | cons a pre' => simp at e
  | cons a init' ih =>
    cases pre with
    | nil =>
      simp at e
      exact absurd e.1 (fun h' => h (by simp [h']))
    | cons b pre' =>
      simp at e
      exact ih pre' (fun h' => h (by simp [h'])) e.2

/-! ## Text of a trace -/

theorem textOf_append (a b : List Event) : textOf (a ++ b) = textOf a ++ textOf b := by
  induction a with
  | nil => rfl
  | cons e rest ih => cases e <;> simp [textOf, ih]

theorem textOf_map_out (g : α → Text) (l : List α) :
    textOf (l.map (fun a => Event.out (g a))) = l.flatMap g := by
  induction l with
  | nil => rfl
  | cons a rest ih => simp [textOf, ih]

theorem textOf_canEvents (m : CANMessage) (c : Fmt) (hw : c.width = 0) :
    textOf (canEvents m c) = canLine m := by
  unfold canEvents canLine canLineBody fdText
  cases m.isCANFD <;> cases m.baudrateSwitch <;>
    simp [textOf_append, textOf_map_out, textOf, hw, padLeft_zero]

/-! ## Digits -/

theorem digitChar_ne_newline (d : Nat) : Nat.digitChar d ≠ '\n' := by
  by_cases h : d < 16
  · interval_cases d <;> decide
  · have e : Nat.digitChar d = '*' := by
      unfold Nat.digitChar
      repeat rw [if_neg (by omega)]
    rw [e]
    decide

theorem toDigitsCore_no_newline (b fuel n : Nat) (ds : List Char) (h : '\n' ∉ ds) :
    '\n' ∉ Nat.toDigitsCore b fuel n ds := by
  induction fuel generalizing n ds with
  | zero => simpa [Nat.toDigitsCore] using h
  | succ fuel ih =>
    simp only [Nat.toDigitsCore]
    have hd : '\n' ∉ Nat.digitChar (n % b) :: ds := by
      simp only [List.mem_cons, not_or]
      exact ⟨fun e => digitChar_ne_newline _ e.symm, h⟩
    split
    · exact hd
    · exact ih _ _ hd

theorem toDigits_no_newline (b n : Nat) : '\n' ∉ Nat.toDigits b n :=
  toDigitsCore_no_newline b _ n [] (by simp)

theorem padLeft_no_newline (k : Nat) (t : Text) (h : '\n' ∉ t) : '\n' ∉ padLeft k '0' t := by
  simp only [padLeft, List.mem_append, not_or]
  refine ⟨fun hm => ?_, h⟩
  have := List.eq_of_mem_replicate hm
  exact absurd this (by decide)

theorem byteText_no_newline (b : Byte) : '\n' ∉ byteText b := by
  simp only [byteText, List.mem_append, not_or]
  exact ⟨padLeft_no_newline _ _ (toDigits_no_newline _ _), by decide⟩

theorem canLineBody_no_newline (m : CANMessage) : '\n' ∉ canLineBody m := by
  have h1 : '\n' ∉ fdText m := by
    unfold fdText
    cases m.isCANFD <;> cases m.baudrateSwitch <;> decide
  have h2 : '\n' ∉ arbidText m := padLeft_no_newline _ _ (toDigits_no_newline _ _)
  have h3 : '\n' ∉ m.data.flatMap byteText := by
    intro hm
    obtain ⟨b, _, hb⟩ := List.mem_flatMap.mp hm
    exact byteText_no_newline b hb
  unfold canLineBody
  simp only [List.mem_append, not_or]
  exact ⟨⟨⟨⟨⟨⟨⟨⟨⟨h1, by decide⟩, h2⟩, by decide⟩, toDigits_no_newline _ _⟩, by decide⟩, h3⟩,
    by decide⟩, toDigits_no_newline _ _⟩, by decide⟩

theorem hexDigitValue_digitChar (d : Nat) (h : d < 16) :
    hexDigitValue (Nat.digitChar d) = d := by
  interval_cases d <;> decide

theorem digitChar_hex (d : Nat) (h : d < 16) :
    Nat.digitChar d ∈ "0123456789abcdef".toList := by
  interval_cases d <;> decide

theorem hexValue_append_single (t : Text) (c : Char) :
    hexValue (t ++ [c]) = 16 * hexValue t + hexDigitValue c := by
  simp [hexValue, List.foldl_append]

theorem toDigitsCore_append (b fuel n : Nat) (ds : List Char) :
    Nat.toDigitsCore b fuel n ds = Nat.toDigitsCore b fuel n [] ++ ds := by
  induction fuel generalizing n ds with
  | zero => simp [Nat.toDigitsCore]
  | succ fuel ih =>
    simp only [Nat.toDigitsCore]
    split
    · simp
    · rw [ih _ (Nat.digitChar (n % b) :: ds), ih _ [Nat.digitChar (n % b)]]
      simp

theorem hexValue_toDigitsCore (fuel n : Nat) (h : n < fuel) :
    hexValue (Nat.toDigitsCore 16 fuel n []) = n := by
  induction fuel generalizing n with
  | zero => omega
  | succ fuel ih =>
    simp only [Nat.toDigitsCore]
    split
    · rename_i h0
      have hn : n % 16 = n := by omega
      rw [hn]
      simp [hexValue, hexDigitValue_digitChar n (by omega)]
    · rename_i h0
      rw [toDigitsCore_append, hexValue_append_single, ih (n / 16) (by omega),
        hexDigitValue_digitChar (n % 16) (Nat.mod_lt _ (by decide))]
      omega

theorem hexValue_toDigits (n : Nat) : hexValue (Nat.toDigits 16 n) = n :=
  hexValue_toDigitsCore (n + 1) n (Nat.lt_succ_self n)

theorem hexValue_zeros (k : Nat) (t : Text) : hexValue (List.replicate k '0' ++ t) = hexValue t := by
  induction k with
  | zero => simp
  | succ k ih =>
    have h0 : hexDigitValue '0' = 0 := by decide
    simp only [List.replicate_succ, List.cons_append]
    unfold hexValue at ih ⊢
    simpa [List.foldl_cons, h0] using ih

theorem toDigitsCore_hex (fuel n : Nat) (ds : List Char)
    (h : ∀ c ∈ ds, c ∈ "0123456789abcdef".toList) :
    ∀ c ∈ Nat.toDigitsCore 16 fuel n ds, c ∈ "0123456789abcdef".toList := by
  induction fuel generalizing n ds with
  | zero => simpa [Nat.toDigitsCore] using h
  | succ fuel ih =>
    simp only [Nat.toDigitsCore]
    have hd : ∀ c ∈ Nat.digitChar (n % 16) :: ds, c ∈ "0123456789abcdef".toList := by
      intro c hc
      rcases List.mem_cons.mp hc with e | e
      · rw [e]
        exact digitChar_hex _ (Nat.mod_lt _ (by decide))
      · exact h c e
    split
    · exact hd
    · exact ih _ _ hd

theorem toDigits_hex (n : Nat) : ∀ c ∈ Nat.toDigits 16 n, c ∈ "0123456789abcdef".toList :=
  toDigitsCore_hex _ n [] (by simp)

theorem toDigits_hex_length (n e : Nat) (h : n < 16 ^ e) (he : 0 < e) :
    (Nat.toDigits 16 n).length ≤ e :=
  Nat.toDigitsCore_length 16 (by decide) (n + 1) n e h he

theorem toDigits_length_pos (b n : Nat) : 0 < (Nat.toDigits b n).length := by
  unfold Nat.toDigits
  simp only [Nat.toDigitsCore]
  split
  · simp
  · rw [toDigitsCore_append]
    simp

theorem padLeft_length (k : Nat) (fill : Char) (t : Text) :
    (padLeft k fill t).length = max k t.length := by
  simp [padLeft]
  omega

/-! ## The hex dump -/

theorem dumpEvents_append (a b : List Byte) (i : Nat) :
    dumpEvents (a ++ b) i = dumpEvents a i ++ dumpEvents b (i + a.length) := by
  induction a generalizing i with
  | nil => simp [dumpEvents]
  | cons x a ih =>
    show dumpEvents (x :: (a ++ b)) i = _
    have e : i + 1 + a.length = i + (a.length + 1) := by omega
    rw [dumpEvents, dumpEvents, ih, e]
    simp

theorem textOf_dumpEvents_inner (a : List Byte) (i : Nat)
    (h : ∀ j, j < a.length → (i + j) % 8 ≠ 0) :
    textOf (dumpEvents a i) = a.flatMap byteText := by
  induction a generalizing i with
  | nil => rfl
  | cons x a ih =>
    have h0 : i % 8 ≠ 0 := by simpa using h 0 (by simp)
    have h1 : ∀ j, j < a.length → (i + 1 + j) % 8 ≠ 0 := by
      intro j hj
      have := h (j + 1) (by simp; omega)
      have e : i + 1 + j = i + (j + 1) := by omega
      rw [e]
      exact this
    simp [dumpEvents, h0, textOf, ih (i + 1) h1]

theorem textOf_dumpEvents_chunk (a : List Byte) (k : Nat) (hpos : a ≠ []) (hlen : a.length ≤ 8) :
    textOf (dumpEvents a (8 * k)) = rowHead (8 * k) ++ a.flatMap byteText := by
  cases a with
  | nil => exact absurd rfl hpos
  | cons x a =>
    have h1 : ∀ j, j < a.length → (8 * k + 1 + j) % 8 ≠ 0 := by
      intro j hj
      simp at hlen
      omega
    simp [dumpEvents, textOf, textOf_dumpEvents_inner a (8 * k + 1) h1]

theorem textOf_dumpEvents_rows (n : Nat) (rest : List Byte) (k : Nat) (hn : rest.length ≤ n) :
    textOf (dumpEvents rest (8 * k))
      = (List.range ((rest.length + 7) / 8)).flatMap
          (fun j => rowHead (8 * (k + j)) ++ ((rest.drop (8 * j)).take 8).flatMap byteText) := by
  induction n generalizing rest k with
  | zero =>
    have : rest = [] := List.length_eq_zero.mp (by omega)
    subst this
    rfl
  | succ n ih =>
    by_cases hr : rest = []
    · subst hr
      rfl
    · have hlen : 0 < rest.length := List.length_pos.mpr hr
      have hsplit : rest = rest.take 8 ++ rest.drop 8 := (List.take_append_drop 8 rest).symm
      have hdrop : (rest.drop 8).length = rest.length - 8 := List.length_drop 8 rest
      have hcount : (rest.length + 7) / 8 = ((rest.drop 8).length + 7) / 8 + 1 := by
        rw [hdrop]
        omega
      have htake : rest.take 8 ≠ [] := by
        intro h
        have h2 := congrArg List.length h
        rw [List.length_take, List.length_nil] at h2
        omega
      have hchunk := textOf_dumpEvents_chunk (rest.take 8) k htake (by simp)
      have htail : textOf (dumpEvents (rest.drop 8) (8 * k + (rest.take 8).length))
          = (List.range (((rest.drop 8).length + 7) / 8)).flatMap
              (fun j => rowHead (8 * (k + 1 + j))
                ++ (((rest.drop 8).drop (8 * j)).take 8).flatMap byteText) := by
        by_cases hd : rest.drop 8 = []
        · rw [hd]
          rfl
        · have h8 : (rest.take 8).length = 8 := by
            have : 0 < (rest.drop 8).length := List.length_pos.mpr hd
            rw [hdrop] at this
            rw [List.length_take]
            omega
          rw [h8]
          have e : 8 * k + 8 = 8 * (k + 1) := by omega
          rw [e]
          exact ih (rest.drop 8) (k + 1) (by rw [hdrop]; omega)
      conv_lhs => rw [hsplit]
      rw [dumpEvents_append, textOf_append, hchunk, htail, hcount, List.range_succ_eq_map]
      simp only [List.flatMap_cons, List.flatMap_map, Nat.mul_zero, Nat.add_zero, List.drop_zero,
        List.append_assoc, List.append_cancel_left_eq]
      congr 1
      funext j
      simp only [Function.comp, List.drop_drop]
      have e1 : k + (j + 1) = k + 1 + j := by omega
      have e2 : 8 + 8 * j = 8 * (j + 1) := by omega
      simp only [Nat.succ_eq_add_one, e1, e2]

theorem textOf_dumpEvents (data : List Byte) : textOf (dumpEvents data 0) = dumpRows data := by
  have h := textOf_dumpEvents_rows data.length data 0 (Nat.le_refl _)
  simpa [dumpRows, dumpRow] using h

/-! ## Formatting state across messages -/

theorem callbackFmt_base (m : Message) (c : Fmt) (hb : c.base = Base.dec) :
    (callbackFmt m c).base = Base.dec := by
  cases m <;> simp [callbackFmt, hb]

theorem streamFmt_base (msgs : List Message) (c : Fmt) (hb : c.base = Base.dec) :
    (streamFmt msgs c).base = Base.dec := by
  induction msgs generalizing c with
  | nil => exact hb
  | cons m rest ih => exact ih _ (callbackFmt_base m c hb)

theorem textOf_callbackEvents_fresh {σ : Type} (L : Library σ) (m : Message) (c : Fmt)
    (hw : c.width = 0) :
    textOf (callbackEvents L m c) = textOf (callbackEvents L m Fmt.init) := by
  cases m with
  | can cm =>
    simp only [callbackEvents]
    rw [textOf_canEvents cm c hw, textOf_canEvents cm Fmt.init rfl]
  | ethernet em =>
    simp [callbackEvents, ethEvents, textOf_append, textOf, hw, padLeft_zero, Fmt.init]
  | other code n t d => rfl

theorem textOf_streamEvents {σ : Type} (L : Library σ) (dev : Nat) (msgs : List Message)
    (c : Fmt) (hw : c.width = 0) :
    textOf (streamEvents L dev msgs c)
      = msgs.flatMap (fun m => textOf (callbackEvents L m Fmt.init)) := by
  induction msgs generalizing c with
  | nil => rfl
  | cons m rest ih =>
    show textOf (callbackEvents L m c ++ streamEvents L dev rest (callbackFmt m c)) = _
    rw [textOf_append, ih _ (callbackFmt_width m c hw),
      textOf_callbackEvents_fresh L m c hw, List.flatMap_cons]

theorem outAt_got (c : Fmt) (hb : c.base = Base.dec) (hw : c.width = 0) (n : Nat) :
    outAt c [Item.str "\t\tGot ", Item.nat n, Item.str " messages while polling", Item.endl]
      = Event.out ("\t\tGot ".toList ++ Nat.toDigits 10 n
          ++ " messages while polling\n".toList) := by
  simp [outAt, render, Item.put, Fmt.field, natText, hb, hw, padLeft_zero]

/-! ## Staged settings -/

theorem outAt_baud (c : Fmt) (hb : c.base = Base.dec) (hw : c.width = 0) (v : Int) :
    outAt c (baudItems v) = Event.out (baudLine v) := by
  unfold baudItems baudLine
  split
  · simp [outAt, render, Item.put, Fmt.field, hw, padLeft_zero]
  · rename_i h
    have e : Int.tdiv v 1000 = v / 1000 := Int.tdiv_eq_ediv (by omega) (by decide)
    have h2 : ¬ (v / 1000 < 0) := by omega
    simp [outAt, render, Item.put, Fmt.field, hw, hb, padLeft_zero, intText, e, h2]

theorem outAt_ret_true (c : Fmt) (hw : c.width = 0) :
    outAt c (retItems true) = Event.out "OK\n".toList := by
  simp [outAt, retItems, render, Item.put, Fmt.field, hw, padLeft_zero]

theorem outAt_str (c : Fmt) (hw : c.width = 0) (s : String) :
    outAt c [Item.str s] = Event.out s.toList := by
  simp [outAt, render, Item.put, Fmt.field, hw, padLeft_zero]

theorem outAt_ok (c : Fmt) (hw : c.width = 0) :
    outAt c [Item.str "OK", Item.endl] = Event.out "OK\n".toList := by
  simp [outAt, render, Item.put, Fmt.field, hw, padLeft_zero]

/-- The settings calls of the program on a library with staged settings, when the
temporary apply succeeds. -/
theorem settingsPhase_staged {σ : Type} (L : Library σ) (dev : Nat) (w : World (σ × Settings))
    (hb : w.cout.base = Base.dec) (hw : w.cout.width = 0)
    (happly : (L.apply dev true w.lib.1).1 = true) :
    ∃ (last : List Event) (s : σ × Settings),
      settingsPhase (staged L) dev w
        = World.mk s w.cout (w.trace
            ++ stagedEvents dev (w.lib.2.baud NetID.HSCAN) (w.lib.2.fdBaud NetID.HSCAN) ++ last) := by
  unfold settingsPhase
  simp (disch := first | decide | exact hw | simp [Item.plain]) only [World.invoke, say_plain,
    reportBaud_run, reportRet_run, List.append_assoc, List.singleton_append, List.cons_append,
    List.nil_append]
  simp only [staged, lifted, happly, setRate, if_true, ↓reduceIte, outAt_baud _ hb hw,
    outAt_ret_true _ hw, outAt_str _ hw]
  exact ⟨_, _, rfl⟩

theorem settingsPhase_staged_apply {σ : Type} (L : Library σ) (dev : Nat)
    (w : World (σ × Settings)) (hw : w.cout.width = 0) :
    ∃ (evs : List Event) (s : σ × Settings),
      settingsPhase (staged L) dev w = World.mk s w.cout (w.trace ++ evs)
      ∧ ((Call.apply true, Ret.bool true) ∈ resultsOn dev evs →
          (L.apply dev true w.lib.1).1 = true) := by
  unfold settingsPhase
  simp (disch := first | decide | exact hw | simp [Item.plain]) only [World.invoke, say_plain,
    reportBaud_run, reportRet_run, List.append_assoc, List.singleton_append, List.cons_append,
    List.nil_append]
  simp only [staged, lifted, setRate, if_true, ↓reduceIte]
  exact ⟨_, _, rfl, fun h => by simpa [resultsOn, outAt] using h⟩

theorem deviceBody_opened {σ : Type} (L : Library σ) (dev : Nat) (device : DeviceInfo)
    (w : World σ) (h : (L.open_ dev w.lib).1 = true) :
    deviceBody L dev device w
      = onlinePhase L dev (settingsPhase L dev
          (World.mk (L.open_ dev w.lib).2 { w.cout with width := 0 }
            (w.trace ++ [outAt w.cout (connectItems device),
              Event.call dev Call.open (Ret.bool true), Event.out "OK\n".toList]))) := by
  unfold deviceBody
  simp only [say_connect, World.invoke, h, Bool.not_true, Bool.false_eq_true, if_false]
  rw [say_plain _ _ (by decide) rfl]
  simp [outAt_ok]

theorem deviceBody_not_opened {σ : Type} (L : Library σ) (dev : Nat) (device : DeviceInfo)
    (w : World σ) (h : (L.open_ dev w.lib).1 = false) :
    resultsOn dev (deviceBody L dev device w).trace
      = resultsOn dev w.trace ++ [(Call.open, Ret.bool false)] := by
  unfold deviceBody
  simp only [say_connect, World.invoke, h, Bool.not_false, if_true]
  simp (disch := first | decide | rfl) only [say_plain, errors_run]
  simp [resultsOn_append, resultsOn_map_outAt, resultsOn_map_out, resultsOn, outAt]

theorem onlinePhase_frame {σ : Type} (L : Library σ) (dev : Nat) (w : World σ)
    (hw : w.cout.width = 0) :
    ∃ (evs : List Event) (s : σ) (c : Fmt),
      onlinePhase L dev w = World.mk s c (w.trace ++ evs)
      ∧ (Call.apply true, Ret.bool true) ∉ resultsOn dev evs := by
  rcases onlinePhase_run L dev w hw with ⟨cl, s, h⟩ | ⟨cl, s, h⟩ | ⟨sr, tr, s, h⟩
  · exact ⟨_, s, _, h, by simp [resultsOn, outAt]⟩
  · exact ⟨_, s, _, h, by simp [resultsOn, outAt]⟩
  · refine ⟨_, s, _, h, ?_⟩
    simp [resultsOn_append, resultsOn_streamPhaseEvents, resultsOn_tailEvents,
      resultsOn_streamEvents, resultsOn, outAt]

/-! ## Line breaks of the hex dump -/

theorem count_newline_zero (t : Text) (h : '\n' ∉ t) : t.count '\n' = 0 :=
  List.count_eq_zero.mpr h

theorem count_newline_bytes (l : List Byte) : (l.flatMap byteText).count '\n' = 0 := by
  apply count_newline_zero
  intro hm
  obtain ⟨b, _, hb⟩ := List.mem_flatMap.mp hm
  exact byteText_no_newline b hb

theorem count_newline_rowHead (i : Nat) : (rowHead i).count '\n' = 1 := by
  unfold rowHead
  rw [List.count_append, List.count_append,
    count_newline_zero _ (padLeft_no_newline 4 _ (toDigits_no_newline 16 i))]
  decide

theorem count_newline_dumpRow (data : List Byte) (k : Nat) :
    (dumpRow data k).count '\n' = 1 := by
  unfold dumpRow
  rw [List.count_append, count_newline_rowHead, count_newline_bytes]

theorem count_newline_rows (data : List Byte) (l : List Nat) :
    (l.flatMap (dumpRow data)).count '\n' = l.length := by
  induction l with
  | nil => rfl
  | cons k rest ih =>
    rw [List.flatMap_cons, List.count_append, count_newline_dumpRow, ih, List.length_cons]
    omega

theorem count_newline_dumpRows (data : List Byte) :
    (dumpRows data).count '\n' = (data.length + 7) / 8 := by
  unfold dumpRows
  rw [count_newline_rows, List.length_range]


set_option maxRecDepth 8000

/-! ## Claims about the sequence of calls -/

/-- C3: on a device on which every call succeeds, the calls of the program are exactly
those of `fullCalls`, in that order, with `removeMessageCallback` given the handle that
`addMessageCallback` returned; `close` is the last call. -/
theorem C3_calls_when_all_succeed {σ : Type} (L : Library σ) (dev : Nat) (device : DeviceInfo)
    (s : σ) (f : Fmt)
    (hok : ∀ p ∈ resultsOn dev (runDevice L dev device s f), p.2.failed = false) :
    ∃ h : Int,
      (Call.addMessageCallback, Ret.handle h) ∈ resultsOn dev (runDevice L dev device s f)
      ∧ callsOn dev (runDevice L dev device s f) = fullCalls h := by
  obtain ⟨o, ho⟩ := runDevice_eq L dev device s f
  rw [ho] at hok ⊢
  unfold callsOn
  rw [resultsOn_bodyEvents] at hok ⊢
  cases o with
  | openFailed errs =>
    have := hok (Call.open, Ret.bool false) (by simp [bodyResults])
    simp [Ret.failed] at this
  | offline st cl =>
    have := hok (Call.goOnline, Ret.bool false) (by simp [bodyResults])
    simp [Ret.failed] at this
  | unconfirmed st cl =>
    have := hok (Call.isOnline, Ret.bool false) (by simp [bodyResults])
    simp [Ret.failed] at this
  | completed st sr tr =>
    refine ⟨sr.handler, ?_, ?_⟩
    · simp [bodyResults]
    · simp [bodyResults, resultsOn_settingsEvents, fullCalls]

/-- C3, on the sample library with no failing call. -/
theorem C3_calls_when_all_succeed_witness :
    (∀ p ∈ resultsOn 0 (runDevice (sampleLibrary [] []) 0 sampleDevice (fun _ => false)
        Fmt.init), p.2.failed = false)
    ∧ ∃ h : Int,
      (Call.addMessageCallback, Ret.handle h)
        ∈ resultsOn 0 (runDevice (sampleLibrary [] []) 0 sampleDevice (fun _ => false) Fmt.init)
      ∧ callsOn 0 (runDevice (sampleLibrary [] []) 0 sampleDevice (fun _ => false) Fmt.init)
          = fullCalls h :=
  ⟨by decide,
   C3_calls_when_all_succeed (sampleLibrary [] []) 0 sampleDevice (fun _ => false) Fmt.init
     (by decide)⟩

/-- C2, as stated, fails: on the sample library with `goOnline` failing, the device is
opened and closed, and is neither taken offline nor given its default settings. -/
theorem C2_counterexample :
    (Call.open, Ret.bool true)
        ∈ resultsOn 0 (runDevice (sampleLibrary [] []) 0
            sampleDevice (fun c => c == Call.goOnline) Fmt.init)
    ∧ Call.close
        ∈ callsOn 0 (runDevice (sampleLibrary [] []) 0
            sampleDevice (fun c => c == Call.goOnline) Fmt.init)
    ∧ Call.goOffline
        ∉ callsOn 0 (runDevice (sampleLibrary [] []) 0
            sampleDevice (fun c => c == Call.goOnline) Fmt.init)
    ∧ Call.applyDefaults
        ∉ callsOn 0 (runDevice (sampleLibrary [] []) 0
            sampleDevice (fun c => c == Call.goOnline) Fmt.init) := by
  decide

/-- C2, amended: a device on which `open`, `goOnline` and `isOnline` return true is taken
offline (`goOffline`) and then given its default settings (`applyDefaults`) immediately
before its only `close`, whatever the other calls return. -/
theorem C2_teardown_before_close {σ : Type} (L : Library σ) (dev : Nat) (device : DeviceInfo)
    (s : σ) (f : Fmt)
    (hopen : (Call.open, Ret.bool true) ∈ resultsOn dev (runDevice L dev device s f))
    (hon : (Call.goOnline, Ret.bool true) ∈ resultsOn dev (runDevice L dev device s f))
    (his : (Call.isOnline, Ret.bool true) ∈ resultsOn dev (runDevice L dev device s f)) :
    ∃ pre : List Call,
      callsOn dev (runDevice L dev device s f)
        = pre ++ [Call.goOffline, Call.applyDefaults, Call.close]
      ∧ Call.close ∉ pre := by
  obtain ⟨o, ho⟩ := runDevice_eq L dev device s f
  rw [ho] at hopen hon his ⊢
  unfold callsOn
  rw [resultsOn_bodyEvents] at hopen hon his ⊢
  cases o with
  | openFailed errs => simp [bodyResults] at hopen
  | offline st cl => simp [bodyResults, resultsOn_settingsEvents] at hon
  | unconfirmed st cl => simp [bodyResults, resultsOn_settingsEvents] at his
  | completed st sr tr =>
    refine ⟨(fullCalls sr.handler).take 20, ?_, ?_⟩ <;>
      simp [bodyResults, resultsOn_settingsEvents, fullCalls]

/-- C2 amended, on the sample library with every settings call and transmission failing. -/
theorem C2_teardown_before_close_witness :
    ∃ pre : List Call,
      callsOn 0 (runDevice (sampleLibrary [] []) 0 sampleDevice
          (fun c => c.reported && c != Call.close) Fmt.init)
        = pre ++ [Call.goOffline, Call.applyDefaults, Call.close]
      ∧ Call.close ∉ pre :=
  C2_teardown_before_close (sampleLibrary [] []) 0 sampleDevice
    (fun c => c.reported && c != Call.close) Fmt.init (by decide) (by decide) (by decide)

/-! ## Claims about the reporting of failures -/

/-- C1, as stated, fails: on the sample library with `setBaudrateFor` failing, the call
reports failure and the error queue is never read, so its entries are not printed. -/
theorem C1_counterexample :
    (Call.setBaudrateFor NetID.HSCAN 125000, Ret.bool false)
        ∈ resultsOn 0 (runDevice
            (sampleLibrary [] []) 0
            sampleDevice (fun c => c == Call.setBaudrateFor NetID.HSCAN 125000) Fmt.init)
    ∧ errorReads (runDevice
        (sampleLibrary [] []) 0
        sampleDevice (fun c => c == Call.setBaudrateFor NetID.HSCAN 125000) Fmt.init) = [] := by
  decide

/-- C1, amended: when `open` returns false the program prints FAIL, reads the error queue
once and prints each of its entries on a line of its own; when `open` returns true the
error queue is never read, whatever the later calls return. -/
theorem C1_errors_printed_on_open_failure {σ : Type} (L : Library σ) (dev : Nat)
    (device : DeviceInfo) (s : σ) (f : Fmt) :
    ((Call.open, Ret.bool false) ∈ resultsOn dev (runDevice L dev device s f) →
      ∃ (errs : List Text) (first : Event),
        runDevice L dev device s f
          = [first, Event.call dev Call.open (Ret.bool false), Event.out "FAIL\n".toList,
              Event.getErrors errs]
            ++ errs.map (fun err => Event.out ("\t".toList ++ err ++ "\n".toList))
            ++ [Event.out "\n".toList])
    ∧ ((Call.open, Ret.bool true) ∈ resultsOn dev (runDevice L dev device s f) →
      errorReads (runDevice L dev device s f) = []) := by
  obtain ⟨o, ho⟩ := runDevice_eq L dev device s f
  rw [ho, resultsOn_bodyEvents, errorReads_bodyEvents]
  cases o with
  | openFailed errs =>
    refine ⟨fun _ => ⟨errs, outAt f (connectItems device), ?_⟩, by simp [bodyResults]⟩
    simp [bodyEvents, outAt_fail, outAt_endl, outAt_error]
  | offline st cl => simp [bodyResults, resultsOn_settingsEvents]
  | unconfirmed st cl => simp [bodyResults, resultsOn_settingsEvents]
  | completed st sr tr => simp [bodyResults, resultsOn_settingsEvents]

/-- C1 amended, on the sample library: with `open` failing, and with `setBaudrateFor`
failing. -/
theorem C1_errors_printed_on_open_failure_witness :
    (∃ (errs : List Text) (first : Event),
        runDevice (sampleLibrary [] []) 0 sampleDevice (fun c => c == Call.open) Fmt.init
          = [first, Event.call 0 Call.open (Ret.bool false), Event.out "FAIL\n".toList,
              Event.getErrors errs]
            ++ errs.map (fun err => Event.out ("\t".toList ++ err ++ "\n".toList))
            ++ [Event.out "\n".toList])
    ∧ errorReads (runDevice
        (sampleLibrary [] []) 0
        sampleDevice (fun c => c == Call.setBaudrateFor NetID.HSCAN 125000) Fmt.init) = [] :=
  ⟨(C1_errors_printed_on_open_failure (sampleLibrary [] []) 0
      sampleDevice (fun c => c == Call.open) Fmt.init).1 (by decide),
   (C1_errors_printed_on_open_failure
      (sampleLibrary [] []) 0
      sampleDevice (fun c => c == Call.setBaudrateFor NetID.HSCAN 125000) Fmt.init).2 (by decide)⟩

/-! ## Claims about the effect of results -/

/-- C6: two passes of the loop body on a device, from any two states of the library, in
which `open`, `goOnline` and `isOnline` return the same results (and
`addMessageCallback`, whose result is an argument of a later call, the same handle)
make the same calls on the device in the same order, whatever the settings calls,
`transmit`, `goOffline`, `applyDefaults` and `close` return.  If moreover the library
supplies the same error queue, the same messages to the callback and the same polled
messages, the two traces differ only in the results of those calls and in status texts
(outputs that start with OK or FAIL). -/
theorem C6_reported_results_do_not_steer {σ : Type} (L : Library σ) (dev : Nat)
    (device : DeviceInfo) (f : Fmt) (s1 s2 : σ)
    (hopen : (resultsOn dev (runDevice L dev device s1 f)).lookup Call.open
      = (resultsOn dev (runDevice L dev device s2 f)).lookup Call.open)
    (hon : (resultsOn dev (runDevice L dev device s1 f)).lookup Call.goOnline
      = (resultsOn dev (runDevice L dev device s2 f)).lookup Call.goOnline)
    (his : (resultsOn dev (runDevice L dev device s1 f)).lookup Call.isOnline
      = (resultsOn dev (runDevice L dev device s2 f)).lookup Call.isOnline)
    (hh : (resultsOn dev (runDevice L dev device s1 f)).lookup Call.addMessageCallback
      = (resultsOn dev (runDevice L dev device s2 f)).lookup Call.addMessageCallback) :
    callsOn dev (runDevice L dev device s1 f) = callsOn dev (runDevice L dev device s2 f)
    ∧ (errorReads (runDevice L dev device s1 f) = errorReads (runDevice L dev device s2 f) →
        receivedBy (runDevice L dev device s1 f) = receivedBy (runDevice L dev device s2 f) →
        (resultsOn dev (runDevice L dev device s1 f)).lookup Call.getMessages
          = (resultsOn dev (runDevice L dev device s2 f)).lookup Call.getMessages →
        List.Forall₂ Similar (runDevice L dev device s1 f) (runDevice L dev device s2 f)) := by
  obtain ⟨o1, h1⟩ := runDevice_eq L dev device s1 f
  obtain ⟨o2, h2⟩ := runDevice_eq L dev device s2 f
  rw [h1, h2] at hopen hon his hh ⊢
  unfold callsOn
  rw [errorReads_bodyEvents, errorReads_bodyEvents, receivedBy_bodyEvents,
    receivedBy_bodyEvents]
  rw [resultsOn_bodyEvents, resultsOn_bodyEvents] at hopen hon his hh ⊢
  have hw : ({ f with width := 0 } : Fmt).width = 0 := rfl
  cases o1 with
  | openFailed e1 =>
    cases o2 with
    | openFailed e2 =>
      refine ⟨by simp [bodyResults], fun he _ _ => ?_⟩
      simp only [List.cons.injEq, and_true] at he
      subst he
      exact forall2_similar_refl _
    | offline st2 cl2 => simp [bodyResults, lookup_cons_eq] at hopen
    | unconfirmed st2 cl2 => simp [bodyResults, lookup_cons_eq] at hopen
    | completed st2 sr2 tr2 => simp [bodyResults, lookup_cons_eq] at hopen
  | offline st1 cl1 =>
    cases o2 with
    | openFailed e2 => simp [bodyResults, lookup_cons_eq] at hopen
    | offline st2 cl2 =>
      refine ⟨by simp [bodyResults, resultsOn_settingsEvents], fun _ _ _ => ?_⟩
      simp only [bodyEvents]
      refine forall2_append (forall2_append (forall2_similar_refl _)
        (settings_similar dev _ hw st1 st2)) ?_
      refine List.Forall₂.cons (Similar.rfl _) (List.Forall₂.cons (Similar.rfl _)
        (List.Forall₂.cons (Similar.rfl _) (List.Forall₂.cons ?_ List.Forall₂.nil)))
      exact similar_call _ _ _ _ rfl
    | unconfirmed st2 cl2 =>
      simp [bodyResults, resultsOn_settingsEvents, lookup_cons_eq] at hon
    | completed st2 sr2 tr2 =>
      simp [bodyResults, resultsOn_settingsEvents, lookup_cons_eq] at hon
  | unconfirmed st1 cl1 =>
    cases o2 with
    | openFailed e2 => simp [bodyResults, lookup_cons_eq] at hopen
    | offline st2 cl2 =>
      simp [bodyResults, resultsOn_settingsEvents, lookup_cons_eq] at hon
    | unconfirmed st2 cl2 =>
      refine ⟨by simp [bodyResults, resultsOn_settingsEvents], fun _ _ _ => ?_⟩
      simp only [bodyEvents]
      refine forall2_append (forall2_append (forall2_similar_refl _)
        (settings_similar dev _ hw st1 st2)) ?_
      refine List.Forall₂.cons (Similar.rfl _) (List.Forall₂.cons (Similar.rfl _)
        (List.Forall₂.cons (Similar.rfl _) (List.Forall₂.cons (Similar.rfl _)
        (List.Forall₂.cons (Similar.rfl _) (List.Forall₂.cons (Similar.rfl _)
        (List.Forall₂.cons ?_ List.Forall₂.nil))))))
      exact similar_call _ _ _ _ rfl
    | completed st2 sr2 tr2 =>
      simp [bodyResults, resultsOn_settingsEvents, lookup_cons_eq] at his
  | completed st1 sr1 tr1 =>
    cases o2 with
    | openFailed e2 => simp [bodyResults, lookup_cons_eq] at hopen
    | offline st2 cl2 =>
      simp [bodyResults, resultsOn_settingsEvents, lookup_cons_eq] at hon
    | unconfirmed st2 cl2 =>
      simp [bodyResults, resultsOn_settingsEvents, lookup_cons_eq] at his
    | completed st2 sr2 tr2 =>
      have hhandler : sr1.handler = sr2.handler := by
        simpa [bodyResults, resultsOn_settingsEvents, lookup_cons_eq] using hh
      refine ⟨by simp [bodyResults, resultsOn_settingsEvents, hhandler], fun _ hr hp => ?_⟩
      have hpolled : sr1.polled = sr2.polled := by
        simpa [bodyResults, resultsOn_settingsEvents, lookup_cons_eq] using hp
      have hsr : sr1 = sr2 := by
        cases sr1; cases sr2; simp_all
      subst hsr
      simp only [bodyEvents]
      exact forall2_append (forall2_append (forall2_append (forall2_append
        (forall2_similar_refl _) (settings_similar dev _ hw st1 st2)) (forall2_similar_refl _))
        (forall2_similar_refl _)) (tail_similar dev _ (streamFmt_width _ _ hw) tr1 tr2)

/-- C6, on the sample library: a pass in which every call succeeds and a pass in which
every settings call, transmission and teardown call fails. -/
theorem C6_reported_results_do_not_steer_witness :
    callsOn 0 (runDevice (sampleLibrary [] []) 0 sampleDevice (fun _ => false) Fmt.init)
      = callsOn 0 (runDevice (sampleLibrary [] []) 0 sampleDevice Call.reported Fmt.init)
    ∧ List.Forall₂ Similar
        (runDevice (sampleLibrary [] []) 0 sampleDevice (fun _ => false) Fmt.init)
        (runDevice (sampleLibrary [] []) 0 sampleDevice Call.reported Fmt.init) :=
  ⟨(C6_reported_results_do_not_steer (sampleLibrary [] []) 0 sampleDevice Fmt.init
      (fun _ => false) Call.reported (by decide) (by decide) (by decide) (by decide)).1,
   (C6_reported_results_do_not_steer (sampleLibrary [] []) 0 sampleDevice Fmt.init
      (fun _ => false) Call.reported (by decide) (by decide) (by decide) (by decide)).2
      (by decide) (by decide) (by decide)⟩

/-! ## Claims about the whole run -/

/-- C9: in every run, on every device found (every position below the number of devices
that `FindAllDevices` returned), `open` is the first call and is made once; `close` is
called exactly once if `open` returned true and never if it returned false; and no call
is made on the device after `close`. -/
theorem C9_close_exactly_once {σ : Type} (L : Library σ) (s : σ) (n i : Nat)
    (hn : devicesFound (runMain L s) = some n) (hi : i < n) :
    ∃ (b : Bool) (rest : List (Call × Ret)),
      resultsOn i (runMain L s) = (Call.open, Ret.bool b) :: rest
      ∧ Call.open ∉ rest.map Prod.fst
      ∧ (callsOn i (runMain L s)).count Call.close = (if b then 1 else 0)
      ∧ ∀ pre post, callsOn i (runMain L s) = pre ++ Call.close :: post → post = [] := by
  obtain ⟨version, supported, devices, evs, c, h, hev⟩ := runMain_eq L s
  rw [h, List.append_assoc, devicesFound_mainHead] at hn
  have hlen : devices.length = n := by simpa using hn
  obtain ⟨o, ho⟩ := (hev i).1 (by omega)
  have hres : resultsOn i (runMain L s) = bodyResults o := by
    rw [h, resultsOn_append, resultsOn_append, resultsOn_mainHead, ho]
    simp [resultsOn, outAt]
  unfold callsOn
  rw [hres]
  cases o with
  | openFailed errs =>
    refine ⟨false, [], rfl, by simp, by simp [bodyResults], fun pre post e => ?_⟩
    cases pre with
    | nil => simp [bodyResults] at e
    | cons a pre' =>
      simp [bodyResults] at e
  | offline st cl =>
    refine ⟨true, _, rfl, by simp [resultsOn_settingsEvents],
      by simp [bodyResults, resultsOn_settingsEvents], fun pre post e => ?_⟩
    refine nothing_after_last Call.close (((Call.open, Ret.bool true) ::
      resultsOn 0 (settingsEvents 0 Fmt.init st) ++ [(Call.goOnline, Ret.bool false)]).map Prod.fst)
      pre post (by simp [resultsOn_settingsEvents]) ?_
    rw [← e]
    simp [bodyResults]
  | unconfirmed st cl =>
    refine ⟨true, _, rfl, by simp [resultsOn_settingsEvents],
      by simp [bodyResults, resultsOn_settingsEvents], fun pre post e => ?_⟩
    refine nothing_after_last Call.close (((Call.open, Ret.bool true) ::
      resultsOn 0 (settingsEvents 0 Fmt.init st) ++ [(Call.goOnline, Ret.bool true),
        (Call.isOnline, Ret.bool false)]).map Prod.fst)
      pre post (by simp [resultsOn_settingsEvents]) ?_
    rw [← e]
    simp [bodyResults]
  | completed st sr tr =>
    refine ⟨true, _, rfl, by simp [resultsOn_settingsEvents],
      by simp [bodyResults, resultsOn_settingsEvents], fun pre post e => ?_⟩
    refine nothing_after_last Call.close ((fullCalls sr.handler).take 22)
      pre post (by simp [fullCalls]) ?_
    rw [← e]
    simp [bodyResults, resultsOn_settingsEvents, fullCalls]

/-- C9, on the sample library with two devices, for the second device. -/
theorem C9_close_exactly_once_witness :
    devicesFound (runMain (sampleLibrary [sampleDevice, sampleDevice] []) (fun _ => false))
      = some 2
    ∧ ∃ (b : Bool) (rest : List (Call × Ret)),
      resultsOn 1 (runMain (sampleLibrary [sampleDevice, sampleDevice] []) (fun _ => false))
        = (Call.open, Ret.bool b) :: rest
      ∧ Call.open ∉ rest.map Prod.fst
      ∧ (callsOn 1 (runMain (sampleLibrary [sampleDevice, sampleDevice] [])
          (fun _ => false))).count Call.close = (if b then 1 else 0)
      ∧ ∀ pre post,
          callsOn 1 (runMain (sampleLibrary [sampleDevice, sampleDevice] []) (fun _ => false))
            = pre ++ Call.close :: post → post = [] :=
  ⟨by decide,
   C9_close_exactly_once (sampleLibrary [sampleDevice, sampleDevice] []) (fun _ => false) 2 1
     (by decide) (by decide)⟩

/-! ## Claims about the message callback -/

/-- C5: for a message whose network type is neither CAN nor Ethernet the callback does
nothing: it prints nothing and leaves the stream (and everything else) as it was.  For a
CAN message it prints one line, which starts with "\t\tCAN " (the stream having no
pending field width), and for an Ethernet message output that contains " Frame - ". -/
theorem C5_callback_by_type {σ : Type} (L : Library σ) (message : Message) (w : World σ) :
    (message.getType ≠ NetType.CAN → message.getType ≠ NetType.Ethernet →
      callback L message w = w)
    ∧ (message.getType = NetType.CAN → w.cout.width = 0 →
      ∃ body : Text, '\n' ∉ body
        ∧ textOf (callback L message w).trace
            = textOf w.trace ++ ("\t\tCAN ".toList ++ body ++ ['\n']))
    ∧ (message.getType = NetType.Ethernet →
      ∃ pre post : Text,
        textOf (callback L message w).trace
          = textOf w.trace ++ (pre ++ " Frame - ".toList ++ post)) := by
  cases message with
  | can m =>
    refine ⟨fun h => absurd rfl h, fun _ hw => ?_, fun h => by simp [Message.getType] at h⟩
    refine ⟨canLineBody m, canLineBody_no_newline m, ?_⟩
    rw [callback_can]
    simp only [textOf_append, textOf_canEvents m w.cout hw, canLine]
  | ethernet m =>
    refine ⟨fun _ h => absurd rfl h, fun h => by simp [Message.getType] at h, fun _ => ?_⟩
    rw [callback_ethernet]
    refine ⟨padLeft w.cout.width w.cout.fill "\t\t".toList ++ L.networkName m.network,
      Nat.toDigits 10 m.data.length ++ " bytes on wire\n".toList
        ++ textOf (List.drop 1 (ethEvents L m w.cout)), ?_⟩
    simp [ethEvents, textOf_append, textOf]
  | other code network timestamp data =>
    exact ⟨fun _ _ => rfl, fun h => by simp [Message.getType] at h,
      fun h => by simp [Message.getType] at h⟩

/-- C5, on the sample library: a message of another type, the CAN frame and the Ethernet
frame of the program. -/
theorem C5_callback_by_type_witness :
    callback (sampleLibrary [] []) (Message.other 5 (NetID.other 9) 0 [])
        sampleWorld
      = sampleWorld
    ∧ (∃ body : Text, '\n' ∉ body
        ∧ textOf (callback (sampleLibrary [] []) (Message.can txMessage)
            sampleWorld).trace
            = textOf sampleWorld.trace
              ++ ("\t\tCAN ".toList ++ body ++ ['\n']))
    ∧ (∃ pre post : Text,
        textOf (callback (sampleLibrary [] []) (Message.ethernet ethTxMessage)
            sampleWorld).trace
          = textOf sampleWorld.trace
              ++ (pre ++ " Frame - ".toList ++ post)) :=
  ⟨(C5_callback_by_type (sampleLibrary [] []) (Message.other 5 (NetID.other 9) 0 [])
      sampleWorld).1 (by decide) (by decide),
   (C5_callback_by_type (sampleLibrary [] []) (Message.can txMessage)
      sampleWorld).2.1 (by decide) (by decide),
   (C5_callback_by_type (sampleLibrary [] []) (Message.ethernet ethTxMessage)
      sampleWorld).2.2 (by decide)⟩

/-- C7: for a CAN message the callback prints exactly one line (the stream having no
pending field width): "\t\tCAN ", the FD marker, "0x", the arbitration ID field, and
then " [", the number of bytes, "] ", the bytes, and the timestamp.  The field is the
hexadecimal digits of the ID, all of them and in lowercase, with zeros in front up to 8
characters when `isExtended` is set and up to 3 otherwise, and the character that
follows it is a blank; its value is the ID; it has exactly 8 characters for an extended
ID below 2^29 and exactly 3 for a standard ID below 2^11. -/
theorem C7_arbitration_id {σ : Type} (L : Library σ) (m : CANMessage) (w : World σ)
    (hw : w.cout.width = 0) :
    textOf (callback L (Message.can m) w).trace
        = textOf w.trace
          ++ ("\t\tCAN ".toList
            ++ (if m.isCANFD then
                  "FD ".toList ++ (if !m.baudrateSwitch then "(No BRS) ".toList else [])
                else [])
            ++ "0x".toList ++ arbidText m
            ++ " [".toList ++ Nat.toDigits 10 m.data.length ++ "] ".toList
            ++ m.data.flatMap (fun b => padLeft 2 '0' (Nat.toDigits 16 b.val) ++ [' '])
            ++ ['('] ++ Nat.toDigits 10 m.timestamp ++ " ns since 1/1/2007)\n".toList)
    ∧ arbidText m
        = List.replicate ((if m.isExtended then 8 else 3) - (Nat.toDigits 16 m.arbid).length) '0'
            ++ Nat.toDigits 16 m.arbid
    ∧ (∀ c ∈ arbidText m, c ∈ "0123456789abcdef".toList)
    ∧ hexValue (Nat.toDigits 16 m.arbid) = m.arbid
    ∧ hexValue (arbidText m) = m.arbid
    ∧ (m.isExtended = true → m.arbid < 2 ^ 29 → (arbidText m).length = 8)
    ∧ (m.isExtended = false → m.arbid < 2 ^ 11 → (arbidText m).length = 3) := by
  refine ⟨?_, rfl, ?_, hexValue_toDigits _, ?_, ?_, ?_⟩
  · rw [callback_can, textOf_append, textOf_canEvents m w.cout hw]
    congr 1
    have e : m.data.flatMap (fun b => padLeft 2 '0' (Nat.toDigits 16 b.val) ++ [' '])
        = m.data.flatMap byteText := rfl
    rw [e]
    simp [canLine, canLineBody, fdText]
  · intro c hc
    simp only [arbidText, padLeft, List.mem_append] at hc
    rcases hc with hc | hc
    · rw [List.eq_of_mem_replicate hc]
      decide
    · exact toDigits_hex _ c hc
  · simp only [arbidText, padLeft]
    exact (hexValue_zeros _ _).trans (hexValue_toDigits _)
  · intro he hlt
    have h1 := toDigits_hex_length m.arbid 8 (by
      calc m.arbid < 2 ^ 29 := hlt
        _ ≤ 16 ^ 8 := by decide) (by decide)
    simp only [arbidText, padLeft_length, he, if_true]
    omega
  · intro he hlt
    have h1 := toDigits_hex_length m.arbid 3 (by
      calc m.arbid < 2 ^ 11 := hlt
        _ ≤ 16 ^ 3 := by decide) (by decide)
    simp only [arbidText, padLeft_length, he]
    simp
    omega

/-- C7, on the extended frame of the program (ID 0x1C5001C5) and on a standard frame
(ID 0x7ff): the whole line of each, and the length of the ID field. -/
theorem C7_arbitration_id_witness :
    sampleWorld.cout.width = 0
    ∧ textOf (callback (sampleLibrary [] []) (Message.can txMessage) sampleWorld).trace
        = "\t\tCAN FD (No BRS) 0x1c5001c5 [3] aa bb cc (0 ns since 1/1/2007)\n".toList
    ∧ textOf (callback (sampleLibrary [] []) (Message.can sampleStandard) sampleWorld).trace
        = "\t\tCAN 0x7ff [2] 01 ff (1000 ns since 1/1/2007)\n".toList
    ∧ (arbidText txMessage).length = 8
    ∧ (arbidText sampleStandard).length = 3 :=
  ⟨by decide,
   (C7_arbitration_id (sampleLibrary [] []) txMessage sampleWorld (by decide)).1.trans
      (by decide),
   (C7_arbitration_id (sampleLibrary [] []) sampleStandard sampleWorld (by decide)).1.trans
      (by decide),
   (C7_arbitration_id (sampleLibrary [] []) txMessage sampleWorld (by decide)).2.2.2.2.2.1
      (by decide) (by decide),
   (C7_arbitration_id (sampleLibrary [] []) sampleStandard sampleWorld (by decide)).2.2.2.2.2.2
      (by decide) (by decide)⟩

/-- C8: for an Ethernet message the callback prints exactly its four header statements
(the frame line, the timestamp, the source and the destination address), then the hex
dump of the payload, then a line break, and nothing else.  The dump has one row for every
eight bytes begun, that is ceil(n/8) rows for n bytes and none for an empty payload, and
as many line breaks as rows; row `k` is a line break and indentation, the offset `8 * k`
in hexadecimal with zeros in front up to four digits, a tab, and the bytes `8 * k` to
`8 * k + 7` (as far as the payload goes) in order, each as exactly two hexadecimal digits
and a blank.  The 18 byte frame of the program gives three rows, at offsets 0000, 0008
and 0010; the last two equations give the whole output of the callback on the sample
library for that frame and for a frame with an empty payload. -/
theorem C8_hex_dump {σ : Type} (L : Library σ) (m : EthernetMessage) (w : World σ) :
    textOf (callback L (Message.ethernet m) w).trace
        = textOf w.trace
          ++ (padLeft w.cout.width w.cout.fill "\t\t".toList ++ L.networkName m.network
              ++ " Frame - ".toList ++ Nat.toDigits 10 m.data.length
              ++ " bytes on wire\n".toList
            ++ ("\t\t  Timestamped:\t".toList ++ Nat.toDigits 10 m.timestamp
              ++ " ns since 1/1/2007\n".toList)
            ++ ("\t\t  Source:\t".toList ++ L.sourceMAC m ++ "\n".toList)
            ++ ("\t\t  Destination:\t".toList ++ L.destinationMAC m)
            ++ dumpRows m.data ++ ['\n'])
    ∧ dumpRows m.data
        = (List.range ((m.data.length + 7) / 8)).flatMap (fun k =>
            "\n\t\t  ".toList ++ padLeft 4 '0' (Nat.toDigits 16 (8 * k)) ++ ['\t']
              ++ ((m.data.drop (8 * k)).take 8).flatMap
                  (fun b => padLeft 2 '0' (Nat.toDigits 16 b.val) ++ [' ']))
    ∧ (dumpRows m.data).count '\n' = (m.data.length + 7) / 8
    ∧ (m.data.length ≤ 8 * ((m.data.length + 7) / 8)
        ∧ 8 * ((m.data.length + 7) / 8) < m.data.length + 8)
    ∧ (∀ k : Nat, 4 ≤ (padLeft 4 '0' (Nat.toDigits 16 (8 * k))).length
        ∧ hexValue (padLeft 4 '0' (Nat.toDigits 16 (8 * k))) = 8 * k)
    ∧ (∀ b : Byte, (padLeft 2 '0' (Nat.toDigits 16 b.val)).length = 2
        ∧ hexValue (padLeft 2 '0' (Nat.toDigits 16 b.val)) = b.val)
    ∧ dumpRows ethTxMessage.data
        = ("\n\t\t  0000\t00 fc 70 00 01 02 00 fc "
            ++ "\n\t\t  0008\t70 00 01 01 00 00 01 c5 "
            ++ "\n\t\t  0010\t01 c5 ").toList
    ∧ textOf (callback (sampleLibrary [] []) (Message.ethernet ethTxMessage) sampleWorld).trace
        = ("\t\tEthernet Frame - 18 bytes on wire\n"
            ++ "\t\t  Timestamped:\t0 ns since 1/1/2007\n"
            ++ "\t\t  Source:\t00:fc:70:00:01:01\n"
            ++ "\t\t  Destination:\t00:fc:70:00:01:02"
            ++ "\n\t\t  0000\t00 fc 70 00 01 02 00 fc "
            ++ "\n\t\t  0008\t70 00 01 01 00 00 01 c5 "
            ++ "\n\t\t  0010\t01 c5 "
            ++ "\n").toList
    ∧ textOf (callback (sampleLibrary [] []) (Message.ethernet sampleEmpty) sampleWorld).trace
        = ("\t\tEthernet Frame - 0 bytes on wire\n"
            ++ "\t\t  Timestamped:\t7 ns since 1/1/2007\n"
            ++ "\t\t  Source:\t00:fc:70:00:01:01\n"
            ++ "\t\t  Destination:\t00:fc:70:00:01:02"
            ++ "\n").toList := by
  refine ⟨?_, rfl, count_newline_dumpRows m.data, by omega, fun k => ⟨?_, ?_⟩,
    fun b => ⟨?_, ?_⟩, by decide, by decide, by decide⟩
  · rw [callback_ethernet]
    simp [ethEvents, textOf_append, textOf, textOf_dumpEvents]
  · rw [padLeft_length]
    omega
  · simp only [padLeft]
    exact (hexValue_zeros _ _).trans (hexValue_toDigits _)
  · have h1 := toDigits_hex_length b.val 2 (by
      calc b.val < 256 := b.isLt
        _ ≤ 16 ^ 2 := by decide) (by decide)
    rw [padLeft_length]
    omega
  · simp only [padLeft]
    exact (hexValue_zeros _ _).trans (hexValue_toDigits _)

/-- C10: when a sequence of messages is handed to the callback on a stream that is in
decimal (and has no pending field width), the text printed is the concatenation of the
texts that each message gives when it is formatted alone on a fresh stream; after the
callback has returned for any number of the messages the stream is in decimal again; and
the message count that the main thread prints after the polling is in decimal. -/
theorem C10_formatting_does_not_leak {σ : Type} (L : Library σ) (dev : Nat)
    (msgs : List Message) (w : World σ) (hb : w.cout.base = Base.dec)
    (hw : w.cout.width = 0) :
    textOf (msgs.foldl (fun w m => callback L m (w.note (Event.received dev m))) w).trace
      = textOf w.trace
        ++ msgs.flatMap (fun m => textOf (callback L m (World.start w.lib Fmt.init)).trace)
    ∧ (∀ k : Nat,
        ((msgs.take k).foldl (fun w m => callback L m (w.note (Event.received dev m))) w).cout.base
          = Base.dec)
    ∧ ∃ (polled : List Message) (before : List Event),
        (streamPhase L dev w).trace
          = before ++ [ Event.call dev Call.getMessages (Ret.messages polled),
              Event.out ("\t\tGot ".toList ++ Nat.toDigits 10 polled.length
                ++ " messages while polling\n".toList) ] := by
  refine ⟨?_, fun k => ?_, ?_⟩
  · rw [stream_run, textOf_append, textOf_streamEvents L dev msgs w.cout hw]
    congr 1
    refine List.flatMap_congr ?_ |>.symm
    intro m _
    rw [callback_run]
    simp [World.start, textOf]
  · rw [stream_run]
    exact streamFmt_base _ _ hb
  · obtain ⟨r, s, h⟩ := streamPhase_run L dev w hw
    rw [h]
    refine ⟨r.polled, w.trace ++ [ Event.call dev Call.enableMessagePolling Ret.unit,
      Event.call dev (Call.setPollingMessageLimit 100000) Ret.unit,
      outAt w.cout [Item.str "\tStreaming messages in for 3 seconds... ", Item.endl],
      Event.call dev Call.addMessageCallback (Ret.handle r.handler),
      Event.sleep 3000 ] ++ streamEvents L dev r.streamed w.cout
      ++ [Event.call dev (Call.removeMessageCallback r.handler) Ret.unit], ?_⟩
    simp [streamPhaseEvents, outAt_got _ (streamFmt_base _ _ hb) (streamFmt_width _ _ hw)]

/-- C10, on the sample library, for a CAN FD frame, an Ethernet frame, a message of
another type and a standard CAN frame, handed over in this order. -/
theorem C10_formatting_does_not_leak_witness :
    sampleWorld.cout.base = Base.dec ∧ sampleWorld.cout.width = 0
    ∧ textOf (sampleMessages.foldl
          (fun w m => callback (sampleLibrary [] []) m (w.note (Event.received 0 m)))
          sampleWorld).trace
        = textOf sampleWorld.trace
          ++ sampleMessages.flatMap (fun m =>
              textOf (callback (sampleLibrary [] []) m
                (World.start sampleWorld.lib Fmt.init)).trace) :=
  ⟨by decide, by decide,
   (C10_formatting_does_not_leak (sampleLibrary [] []) 0 sampleMessages sampleWorld
      (by decide) (by decide)).1⟩

/-! ## Claims about the settings -/

/-- C4: on a library with staged settings (a set call writes only the pending rate, a
get call returns the operating rate, a successful apply copies pending to operating), a
pass of the loop body in which `open` and the temporary apply succeed reads, on a stream
in decimal: the initial HSCAN rate `b` before and again after `setBaudrateFor`, printed
alike; the initial FD rate before and again after `setFDBaudrateFor`, printed alike; and
after the apply 125000, printed as 125kbit/s, and 8000000, printed as 8000kbit/s.  For
`b >= 0` the rate is printed as `b / 1000` kbit/s. -/
theorem C4_staged_settings {σ : Type} (L : Library σ) (dev : Nat) (device : DeviceInfo)
    (s : σ) (st : Settings) (f : Fmt) (hf : f.base = Base.dec)
    (hb : 0 ≤ st.baud NetID.HSCAN)
    (hopen : (Call.open, Ret.bool true)
      ∈ resultsOn dev (runDevice (staged L) dev device (s, st) f))
    (happly : (Call.apply true, Ret.bool true)
      ∈ resultsOn dev (runDevice (staged L) dev device (s, st) f)) :
    (∃ (first : Event) (after : List Event),
      runDevice (staged L) dev device (s, st) f
        = [first, Event.call dev Call.open (Ret.bool true), Event.out "OK\n".toList]
          ++ stagedEvents dev (st.baud NetID.HSCAN) (st.fdBaud NetID.HSCAN) ++ after)
    ∧ baudLine (st.baud NetID.HSCAN)
        = "OK, ".toList ++ Nat.toDigits 10 (st.baud NetID.HSCAN / 1000).toNat
            ++ "kbit/s\n".toList := by
  refine ⟨?_, by simp [baudLine, Int.not_lt.mpr hb]⟩
  have hopen' : ((staged L).open_ dev (s, st)).1 = true := by
    cases h : ((staged L).open_ dev (s, st)).1 with
    | true => rfl
    | false =>
      have := deviceBody_not_opened (staged L) dev device (World.start (s, st) f) h
      unfold runDevice at hopen
      rw [this] at hopen
      simp [World.start, resultsOn] at hopen
  have hbody := deviceBody_opened (staged L) dev device (World.start (s, st) f) hopen'
  have hw : ({ f with width := 0 } : Fmt).width = 0 := rfl
  have hbase : ({ f with width := 0 } : Fmt).base = Base.dec := hf
  obtain ⟨evs, s1, h1, h1a⟩ := settingsPhase_staged_apply L dev
    (World.mk ((staged L).open_ dev (s, st)).2 { f with width := 0 }
      ([] ++ [outAt f (connectItems device), Event.call dev Call.open (Ret.bool true),
        Event.out "OK\n".toList])) hw
  obtain ⟨evs2, s2, c2, h2, h2a⟩ := onlinePhase_frame (staged L) dev
    (World.mk s1 { f with width := 0 }
      (([] ++ [outAt f (connectItems device), Event.call dev Call.open (Ret.bool true),
        Event.out "OK\n".toList]) ++ evs)) hw
  have happly' : (L.apply dev true (L.open_ dev s).2).1 = true := by
    apply h1a
    unfold runDevice at happly
    rw [hbody] at happly
    simp only [World.start] at happly
    rw [h1, h2] at happly
    simpa [resultsOn_append, resultsOn, outAt, h2a] using happly
  obtain ⟨last, s3, h3⟩ := settingsPhase_staged L dev
    (World.mk ((staged L).open_ dev (s, st)).2 { f with width := 0 }
      ([] ++ [outAt f (connectItems device), Event.call dev Call.open (Ret.bool true),
        Event.out "OK\n".toList])) hbase hw happly'
  obtain ⟨evs4, s4, c4, h4, _⟩ := onlinePhase_frame (staged L) dev
    (World.mk s3 { f with width := 0 }
      (([] ++ [outAt f (connectItems device), Event.call dev Call.open (Ret.bool true),
        Event.out "OK\n".toList])
        ++ stagedEvents dev (st.baud NetID.HSCAN) (st.fdBaud NetID.HSCAN) ++ last)) hw
  refine ⟨outAt f (connectItems device), last ++ evs4, ?_⟩
  unfold runDevice
  rw [hbody]
  simp only [World.start]
  have e3 : (((staged L).open_ dev (s, st)).2).2 = st := rfl
  rw [e3] at h3
  rw [h3, h4]
  simp

/-- C4, on the sample library with staged settings: HSCAN operates at 500 kbit/s and
2 Mbit/s before the apply. -/
theorem C4_staged_settings_witness :
    0 ≤ sampleSettings.baud NetID.HSCAN
    ∧ (∃ (first : Event) (after : List Event),
        runDevice (staged (sampleLibrary [] [])) 0 sampleDevice ((fun _ => false), sampleSettings)
            Fmt.init
          = [first, Event.call 0 Call.open (Ret.bool true), Event.out "OK\n".toList]
            ++ stagedEvents 0 500000 2000000 ++ after)
    ∧ baudLine 500000 = "OK, 500kbit/s\n".toList :=
  ⟨by decide,
   (C4_staged_settings (sampleLibrary [] []) 0 sampleDevice (fun _ => false) sampleSettings
      Fmt.init rfl (by decide) (by decide) (by decide)).1,
   by decide⟩

end SimpleExample
